import Mathlib

/-!
# Verification of the Havoc pipeline core

Shallow embedding of the pipeline orchestration and sandbox execution core
of the Havoc repository (config allow-list / protected-file checks, the
confidence scorer, the policy gate evaluator, the task planner validator and
topological sorter, the sandboxed command runner, the task executor and the
pipeline orchestrator), together with theorems settling the specification
claims about them.

Conventions of the embedding:
* JavaScript numbers are embedded as `ℚ` (scores, rates) or `Nat`/`Int`
  (counts, exit codes, ids); `Math.round` is embedded as `⌊q + 1/2⌋`.
* JavaScript strings are Lean `String`s; `split`, `startsWith`,
  `includes`, `trim`, … are embedded through their `List Char` data.
* `async` functions over external collaborators (database, GitHub, LLM,
  container runtime) are embedded in a state monad `M` over a `World` that
  records every observable call, with an `Env` of oracles fixing each
  collaborator's outcome (`Except String α`: `error` = a thrown exception).
-/

set_option maxHeartbeats 1000000

namespace Havoc

/-! ## String helpers (embeddings of the JS string operations used) -/

/-- Embedding of JS `s.startsWith(pre)`. -/
def strStarts (s pre : String) : Bool := pre.data.isPrefixOf s.data

/-- Boolean contiguous-sublist test (no such function ships with the
library): `sub` occurs inside `l`. -/
def listInfixB (sub : List Char) : List Char → Bool
  | [] => sub.isEmpty
  | c :: rest => sub.isPrefixOf (c :: rest) || listInfixB sub rest

/-- Embedding of JS `s.includes(sub)` (contiguous substring test). -/
def strIncludes (s sub : String) : Bool := listInfixB sub.data s.data

/-- Embedding of JS `s.toLowerCase()` (character-wise, as in the ASCII
identifiers and keywords this code applies it to). -/
def strToLower (s : String) : String := String.mk (s.data.map Char.toLower)

/-- Embedding of JS `s.toUpperCase()`. -/
def strToUpper (s : String) : String := String.mk (s.data.map Char.toUpper)

/-- Embedding of JS `command.split(' ')[0]`: the prefix before the first
space (empty when the string starts with a space). -/
def firstToken (s : String) : String := String.mk (s.data.takeWhile (· ≠ ' '))

/-! ## Execution results and configuration (`config.ts`, `sandbox/manager.ts`) -/

/-- Result of executing a command in the sandbox (`ExecResult`). -/
structure ExecResult where
  exitCode : Int
  stdout : String
  stderr : String
  deriving Repr, DecidableEq

/-- Havoc configuration from `.havoc.yaml` (`HavocConfig`). -/
structure HavocConfig where
  version : Nat
  max_iterations : Nat
  timeout_minutes : Nat
  test_command : String
  min_confidence : ℚ
  min_test_pass_rate : ℚ
  allowed_commands : List String
  protected_files : List String
  deriving Repr, DecidableEq

/-- `DEFAULT_HAVOC_CONFIG` from `config.ts`. -/
def DEFAULT_HAVOC_CONFIG : HavocConfig :=
  { version := 1
    max_iterations := 50
    timeout_minutes := 10
    test_command := "npm test"
    min_confidence := 70
    min_test_pass_rate := 90
    allowed_commands :=
      ["git", "npm", "yarn", "pnpm", "node", "npx", "pytest", "python", "go", "cargo"]
    protected_files :=
      [".env", ".env.*", "*.key", "*.pem", "secrets.*", ".git/**"] }

/-- The inline fallback configuration built in `runPipeline` when the target
repository has no `.havoc.yaml` (pipeline source, clone stage). -/
def inlineFallbackConfig : HavocConfig :=
  { version := 1
    max_iterations := 50
    timeout_minutes := 10
    test_command := ""
    min_confidence := 70
    min_test_pass_rate := 90
    allowed_commands := ["git", "npm", "yarn", "pnpm", "node", "npx"]
    protected_files := [".env", ".env.*", "*.key", "*.pem", "secrets.*"] }

/-- `isCommandAllowed` from `config.ts`: the command's first
space-separated token must equal an allowed command, or start with an
allowed command followed by a space. -/
def isCommandAllowed (command : String) (config : HavocConfig) : Bool :=
  let baseCommand := firstToken command
  config.allowed_commands.any fun allowed =>
    baseCommand == allowed || strStarts baseCommand (allowed ++ " ")

/-! ### Protected-file glob matching (`isFileProtected`)

For a pattern containing `*`, the source builds the anchored regex
`'^' + pattern.replace(/\*/g, '.*').replace(/\?/g, '.') + '$'` and tests the
file path against it.  In the resulting regex each original `*` becomes the
any-sequence form `.*`, and each original `?` — and each original `.`, which
is a regex metacharacter — matches one arbitrary character.  We embed that
regex (over glob patterns built from ordinary path characters) as a token
list plus a fuel-structural matcher. -/

/-- One token of the regex the source builds from a protected-file pattern:
an original `*` (any sequence), an original `?` or `.` (any one character),
or a literal character. -/
inductive GTok where
  | star : GTok
  | anyc : GTok
  | lit : Char → GTok
  deriving Repr, DecidableEq

/-- Tokenization of a protected-file pattern, mirroring
`pattern.replace(/\*/g, '.*').replace(/\?/g, '.')`. -/
def parseGlob : List Char → List GTok
  | [] => []
  | c :: cs =>
    (if c = '*' then GTok.star else if c = '?' then GTok.anyc
     else if c = '.' then GTok.anyc else GTok.lit c) :: parseGlob cs

/-- Fuel-structural matcher for the anchored regex: `star` matches any
sequence, `anyc` one character, `lit c` that character.  The fuel in
`globMatch` strictly exceeds any possible recursion depth, so the fueled
function agrees with the regex semantics. -/
def globMatchF : Nat → List GTok → List Char → Bool
  | 0, _, _ => false
  | _ + 1, [], s => s.isEmpty
  | fuel + 1, GTok.star :: ps, s =>
    globMatchF fuel ps s ||
      (match s with
       | [] => false
       | _ :: s' => globMatchF fuel (GTok.star :: ps) s')
  | fuel + 1, GTok.anyc :: ps, s =>
    (match s with
     | [] => false
     | _ :: s' => globMatchF fuel ps s')
  | fuel + 1, GTok.lit c :: ps, s =>
    (match s with
     | [] => false
     | d :: s' => c == d && globMatchF fuel ps s')

/-- The regex test for a pattern containing `*`. -/
def globMatch (ps : List GTok) (s : List Char) : Bool :=
  globMatchF (ps.length + s.length + 1) ps s

/-- `isFileProtected` from `config.ts`: a pattern containing `*` is matched
through the constructed regex; any other pattern (even one containing `?`)
is matched by exact equality or prefix. -/
def isFileProtected (filePath : String) (config : HavocConfig) : Bool :=
  config.protected_files.any fun pattern =>
    if pattern.data.contains '*' then
      globMatch (parseGlob pattern.data) filePath.data
    else
      filePath == pattern || strStarts filePath pattern

/-! ## Data model (`agents/planner.ts`, `agents/editor.ts`, `agents/tester.ts`,
`agents/reviewer.ts`, `artifacts/intent-card.ts`) -/

/-- A single task in the plan (`Task`).  The task `type` is kept as the raw
string the planning LLM produced, because `executeTask` has an explicit
default branch for unknown kinds. -/
structure Task where
  id : Nat
  type : String
  file : String
  description : String
  details : String
  dependencies : List Nat
  deriving Repr, DecidableEq

/-- The full plan for implementing the issue (`Plan`). -/
structure Plan where
  summary : String
  approach : String
  tasks : List Task
  testStrategy : String
  risks : List String
  deriving Repr, DecidableEq

/-- Action recorded in a `TaskResult`. -/
inductive Action where
  | created | modified | deleted | skipped
  deriving Repr, DecidableEq

/-- Result of executing a task (`TaskResult`). -/
structure TaskResult where
  taskId : Nat
  success : Bool
  file : String
  action : Action
  error : Option String := none
  diff : Option String := none
  deriving Repr, DecidableEq

/-- Normalized test results (`TestResults`). -/
structure TestResults where
  ran : Bool
  passed : Bool
  total : Nat
  passed_count : Nat
  failed_count : Nat
  skipped_count : Nat
  pass_rate : ℚ
  duration_ms : Nat
  output : String
  error : Option String := none
  deriving Repr, DecidableEq

/-- Normalized lint results (`LintResults`). -/
structure LintResults where
  ran : Bool
  passed : Bool
  errors : Nat
  warnings : Nat
  output : String
  deriving Repr, DecidableEq

/-- Severity of a review item. -/
inductive Severity where
  | low | medium | high | critical
  deriving Repr, DecidableEq

/-- Overall assessment of the self-review. -/
inductive Assessment where
  | approve | request_changes | needs_discussion
  deriving Repr, DecidableEq

/-- Rendering of an assessment back to its source string. -/
def Assessment.toName : Assessment → String
  | .approve => "approve"
  | .request_changes => "request_changes"
  | .needs_discussion => "needs_discussion"

/-- Individual review item (`ReviewItem`). -/
structure ReviewItem where
  severity : Severity
  file : Option String := none
  line : Option Nat := none
  message : String
  deriving Repr, DecidableEq

/-- Self-review result (`ReviewResult`). -/
structure ReviewResult where
  summary : String
  issues : List ReviewItem
  suggestions : List ReviewItem
  risks : List ReviewItem
  overallAssessment : Assessment
  confidence : ℚ
  deriving Repr, DecidableEq

/-- Confidence score breakdown (`ConfidenceBreakdown`), holding the six
rounded sub-scores. -/
structure ConfidenceBreakdown where
  testsPassing : ℤ
  lintClean : ℤ
  changeComplexity : ℤ
  dependencyRisk : ℤ
  behaviorRisk : ℤ
  selfReview : ℤ
  deriving Repr, DecidableEq

/-! ## Confidence scorer (`artifacts/confidence.ts`) -/

/-- Embedding of JS `Math.round`: round half toward positive infinity. -/
def jsRound (q : ℚ) : ℤ := ⌊q + 1 / 2⌋

/-- Weight constants (`WEIGHTS`) from `confidence.ts`. -/
def weightTestsPassing : ℚ := 0.30
/-- Lint weight. -/
def weightLintClean : ℚ := 0.10
/-- Complexity weight. -/
def weightChangeComplexity : ℚ := 0.20
/-- Dependency-risk weight. -/
def weightDependencyRisk : ℚ := 0.15
/-- Behavior-risk weight. -/
def weightBehaviorRisk : ℚ := 0.15
/-- Self-review weight. -/
def weightSelfReview : ℚ := 0.10

/-- `calculateTestScore`. -/
def calculateTestScore (results : TestResults) : ℚ :=
  if !results.ran then 50
  else if !results.passed then max 0 (results.pass_rate - 20)
  else results.pass_rate

/-- `calculateLintScore`. -/
def calculateLintScore (results : LintResults) : ℚ :=
  if !results.ran then 70
  else if results.passed then 100
  else
    let errorPenalty := min 50 ((results.errors : ℚ) * 10)
    let warningPenalty := min 20 ((results.warnings : ℚ) * 2)
    max 0 (100 - errorPenalty - warningPenalty)

/-- `calculateComplexityScore`. -/
def calculateComplexityScore (taskResults : List TaskResult) (plan : Plan) : ℚ :=
  let successfulTasks := (taskResults.filter (fun t => t.success)).length
  let totalTasks := plan.tasks.length
  let score : ℚ := if totalTasks > 0 then (successfulTasks : ℚ) / (totalTasks : ℚ) * 100 else 50
  let score := if totalTasks > 10 then score - ((totalTasks : ℚ) - 10) * 2 else score
  let fileChanges :=
    (taskResults.filter (fun t => t.success && t.action != Action.skipped)).length
  let score := if fileChanges > 5 then score - ((fileChanges : ℚ) - 5) * 3 else score
  max 0 (min 100 score)

/-- `calculateDependencyScore`. -/
def calculateDependencyScore (plan : Plan) : ℚ :=
  let score : ℚ := 100
  let score := plan.tasks.foldl
    (fun score task =>
      let details := strToLower task.details
      let score :=
        if strIncludes details "npm install" || strIncludes details "add dependency" then
          score - 15
        else score
      if strIncludes details "external api" || strIncludes details "third-party" then
        score - 10
      else score)
    score
  let score := plan.risks.foldl
    (fun score risk =>
      if strIncludes (strToLower risk) "dependency" || strIncludes (strToLower risk) "package" then
        score - 10
      else score)
    score
  max 0 score

/-- `calculateBehaviorScore`. -/
def calculateBehaviorScore (plan : Plan) (review : ReviewResult) : ℚ :=
  let score : ℚ := 100
  let score := plan.tasks.foldl
    (fun score task =>
      let file := strToLower task.file
      let details := strToLower task.details
      let score :=
        if strIncludes file "migration" || strIncludes details "database" ||
            strIncludes details "schema" then score - 15
        else score
      let score :=
        if strIncludes file "auth" || strIncludes details "security" ||
            strIncludes details "password" then score - 10
        else score
      if strIncludes file "config" || strIncludes file ".env" then score - 5 else score)
    score
  let score := review.risks.foldl
    (fun score risk =>
      match risk.severity with
      | .critical => score - 25
      | .high => score - 15
      | .medium => score - 8
      | .low => score - 3)
    score
  max 0 score

/-- `calculateSelfReviewScore`. -/
def calculateSelfReviewScore (review : ReviewResult) : ℚ :=
  let score := review.confidence
  let score :=
    match review.overallAssessment with
    | .approve => max score 70
    | .request_changes => min score 50
    | .needs_discussion => min score 60
  let score := review.issues.foldl
    (fun score issue =>
      match issue.severity with
      | .critical => score - 30
      | .high => score - 20
      | .medium => score - 10
      | .low => score - 3)
    score
  max 0 (min 100 score)

/-- Result of `calculateConfidenceScore`. -/
structure ConfidenceOutcome where
  score : ℤ
  breakdown : ConfidenceBreakdown
  deriving Repr, DecidableEq

/-- `calculateConfidenceScore`: the weighted, rounded, clamped overall score
together with the rounded breakdown. -/
def calculateConfidenceScore (taskResults : List TaskResult) (testResults : TestResults)
    (lintResults : LintResults) (review : ReviewResult) (plan : Plan) : ConfidenceOutcome :=
  let testsPassing := calculateTestScore testResults
  let lintClean := calculateLintScore lintResults
  let changeComplexity := calculateComplexityScore taskResults plan
  let dependencyRisk := calculateDependencyScore plan
  let behaviorRisk := calculateBehaviorScore plan review
  let selfReview := calculateSelfReviewScore review
  let score := jsRound
    (testsPassing * weightTestsPassing +
     lintClean * weightLintClean +
     changeComplexity * weightChangeComplexity +
     dependencyRisk * weightDependencyRisk +
     behaviorRisk * weightBehaviorRisk +
     selfReview * weightSelfReview)
  { score := max 0 (min 100 score)
    breakdown :=
      { testsPassing := jsRound testsPassing
        lintClean := jsRound lintClean
        changeComplexity := jsRound changeComplexity
        dependencyRisk := jsRound dependencyRisk
        behaviorRisk := jsRound behaviorRisk
        selfReview := jsRound selfReview } }

/-! ## Policy gate evaluator (`policy.ts`) -/

/-- A JS `string | number` union value, as stored in `GateResult.actual`
and `GateResult.threshold`. -/
inductive JsVal where
  | str : String → JsVal
  | num : ℚ → JsVal
  deriving Repr, DecidableEq

/-- Individual gate result (`GateResult`). -/
structure GateResult where
  name : String
  passed : Bool
  required : Bool
  actual : JsVal
  threshold : JsVal
  message : String
  deriving Repr, DecidableEq

/-- Policy gate check result (`PolicyResult`). -/
structure PolicyResult where
  passed : Bool
  gates : List GateResult
  blockers : List String
  warnings : List String
  deriving Repr, DecidableEq

/-- Embedding of JS `Number.prototype.toFixed(1)` for the non-negative
rates that reach it: one decimal digit, rounding half away from zero. -/
def toFixed1 (q : ℚ) : String :=
  let n : ℤ := ⌊q * 10 + 1 / 2⌋
  toString (n / 10) ++ "." ++ toString (n % 10)

/-- `checkConfidenceGate`. -/
def checkConfidenceGate (config : HavocConfig) (score : ℤ) : GateResult :=
  let passed : Bool := (score : ℚ) ≥ config.min_confidence
  { name := "Minimum Confidence"
    passed := passed
    required := true
    actual := JsVal.num score
    threshold := JsVal.num config.min_confidence
    message :=
      if passed then
        s!"Confidence score {score}% meets threshold of {config.min_confidence}%"
      else
        s!"Confidence score {score}% is below threshold of {config.min_confidence}%" }

/-- `checkTestGate`: auto-passes when tests did not run. -/
def checkTestGate (config : HavocConfig) (results : TestResults) : GateResult :=
  if !results.ran then
    { name := "Test Pass Rate"
      passed := true
      required := true
      actual := JsVal.str "N/A"
      threshold := JsVal.num config.min_test_pass_rate
      message := "Tests did not run (gate skipped)" }
  else
    let passed : Bool := results.pass_rate ≥ config.min_test_pass_rate
    let rate := toFixed1 results.pass_rate
    { name := "Test Pass Rate"
      passed := passed
      required := true
      actual := JsVal.num results.pass_rate
      threshold := JsVal.num config.min_test_pass_rate
      message :=
        if passed then
          s!"Test pass rate {rate}% meets threshold of {config.min_test_pass_rate}%"
        else
          s!"Test pass rate {rate}% is below threshold of {config.min_test_pass_rate}%" }

/-- `checkTestsRanGate` (warning-only). -/
def checkTestsRanGate (results : TestResults) : GateResult :=
  { name := "Tests Executed"
    passed := results.ran
    required := false
    actual := JsVal.str (if results.ran then "Yes" else "No")
    threshold := JsVal.str "Yes"
    message :=
      if results.ran then s!"Tests executed successfully ({results.total} tests)"
      else "Tests did not execute" }

/-- `checkLintGate` (warning-only). -/
def checkLintGate (results : LintResults) : GateResult :=
  { name := "Lint Clean"
    passed := results.passed
    required := false
    actual := JsVal.num results.errors
    threshold := JsVal.num 0
    message :=
      if results.passed then "No lint errors"
      else s!"{results.errors} lint errors found" }

/-- `checkReviewGate`: no critical issues (required). -/
def checkReviewGate (review : ReviewResult) : GateResult :=
  let criticalIssues := review.issues.filter fun i => i.severity = Severity.critical
  let passed : Bool := criticalIssues.length = 0
  let listed := String.intercalate "; " (criticalIssues.map (·.message))
  { name := "No Critical Issues"
    passed := passed
    required := true
    actual := JsVal.num criticalIssues.length
    threshold := JsVal.num 0
    message :=
      if passed then "No critical issues identified"
      else s!"{criticalIssues.length} critical issue(s) found: {listed}" }

/-- `checkAssessmentGate` (warning-only). -/
def checkAssessmentGate (review : ReviewResult) : GateResult :=
  let passed : Bool := review.overallAssessment ≠ Assessment.request_changes
  let assessment := review.overallAssessment.toName
  { name := "Review Assessment"
    passed := passed
    required := false
    actual := JsVal.str assessment
    threshold := JsVal.str "approve or needs_discussion"
    message :=
      if passed then s!"Review assessment: {assessment}"
      else "Self-review requested changes" }

/-- `checkPolicyGates`: evaluates the six gates, collecting failed required
gates into `blockers` and failed optional gates into `warnings`; the run
passes iff there are no blockers. -/
def checkPolicyGates (config : HavocConfig) (confidenceScore : ℤ)
    (testResults : TestResults) (lintResults : LintResults)
    (review : ReviewResult) : PolicyResult :=
  let confidenceGate := checkConfidenceGate config confidenceScore
  let testGate := checkTestGate config testResults
  let testsRanGate := checkTestsRanGate testResults
  let lintGate := checkLintGate lintResults
  let reviewGate := checkReviewGate review
  let assessmentGate := checkAssessmentGate review
  let gates := [confidenceGate, testGate, testsRanGate, lintGate, reviewGate, assessmentGate]
  let blockers :=
    (if !confidenceGate.passed then [confidenceGate.message] else []) ++
    (if !testGate.passed then [testGate.message] else []) ++
    (if !reviewGate.passed then [reviewGate.message] else [])
  let warnings :=
    (if !testsRanGate.passed then [testsRanGate.message] else []) ++
    (if !lintGate.passed then [lintGate.message] else []) ++
    (if !assessmentGate.passed then [assessmentGate.message] else [])
  { passed := blockers.length == 0
    gates := gates
    blockers := blockers
    warnings := warnings }

/-- `getPolicySummary`. -/
def getPolicySummary (result : PolicyResult) : String :=
  if result.passed then
    if result.warnings.length > 0 then
      s!"All required policy gates passed with {result.warnings.length} warning(s)"
    else "All policy gates passed"
  else
    "Policy gates failed: " ++ String.intercalate "; " result.blockers

/-! ## Task planner: validation and topological sort (`agents/planner.ts`) -/

/-- Result of `validatePlan`. -/
structure ValidationResult where
  valid : Bool
  errors : List String
  deriving Repr, DecidableEq

/-- `validatePlan`: every dependency must exist in the plan and be strictly
smaller than the depending task's id; all violations are collected. -/
def validatePlan (plan : Plan) : ValidationResult :=
  let taskIds := plan.tasks.map (·.id)
  let errors := plan.tasks.flatMap fun task =>
    task.dependencies.flatMap fun dep =>
      (if !taskIds.contains dep then
        [s!"Task {task.id} depends on non-existent task {dep}"]
       else []) ++
      (if dep ≥ task.id then
        [s!"Task {task.id} has forward dependency on task {dep}"]
       else [])
  { valid := errors.length == 0, errors := errors }

/-- Lookup in the JS `Map` built by `sortTasks` (`new Map(tasks.map(t =>
[t.id, t]))`): with duplicate ids the later entry overwrites the earlier
one, so the lookup returns the *last* task with the given id. -/
def taskMapGet (tasks : List Task) (id : Nat) : Option Task :=
  tasks.foldl (fun acc t => if t.id = id then some t else acc) none

/-- Traversal state of `sortTasks`: the emitted list and the visited set. -/
structure SortState where
  sorted : List Task
  visited : List Nat
  deriving Repr, DecidableEq

/-- The recursive `visit` of `sortTasks`, with explicit fuel standing in
for the unbounded JS recursion.  A call marks the id visited, visits the
dependencies of the corresponding task (if any), then emits the task.  In
the source the recursion depth is bounded by the number of distinct ids
ever inserted into the visited set, so any fuel exceeding the number of
task ids plus the total number of dependency references (plus the largest
id, which dominates the depth for validated plans) reproduces it exactly;
`sortFuel` below is such a bound. -/
def visit (tasks : List Task) : Nat → Nat → SortState → SortState
  | 0, _, st => st
  | fuel + 1, taskId, st =>
    if taskId ∈ st.visited then st
    else
      let st1 : SortState := { st with visited := taskId :: st.visited }
      match taskMapGet tasks taskId with
      | none => st1
      | some task =>
        let st2 := task.dependencies.foldl (fun s dep => visit tasks fuel dep s) st1
        { st2 with sorted := st2.sorted ++ [task] }

/-- Fuel that strictly exceeds any recursion depth `visit` can reach. -/
def sortFuel (tasks : List Task) : Nat :=
  tasks.length + (tasks.map (fun t => t.dependencies.length)).sum +
    (tasks.map (·.id)).foldr max 0 + 1

/-- `sortTasks`: depth-first post-order traversal over the dependency
graph, sharing one visited set across the top-level loop. -/
def sortTasks (tasks : List Task) : List Task :=
  (tasks.foldl (fun st task => visit tasks (sortFuel tasks) task.id st)
    { sorted := [], visited := [] }).sorted

/-! ## The worked confidence example from the specification -/

/-- Example task results: three successful tasks, three changed files. -/
def exampleTaskResults : List TaskResult :=
  [{ taskId := 1, success := true, file := "src/a.ts", action := Action.modified,
     diff := some "d1" },
   { taskId := 2, success := true, file := "src/b.ts", action := Action.modified,
     diff := some "d2" },
   { taskId := 3, success := true, file := "src/c.ts", action := Action.created,
     diff := some "d3" }]

/-- Example test results: tests ran and passed with pass rate 100. -/
def exampleTestResults : TestResults :=
  { ran := true, passed := true, total := 3, passed_count := 3, failed_count := 0,
    skipped_count := 0, pass_rate := 100, duration_ms := 10, output := "ok" }

/-- Example lint results: lint ran and passed. -/
def exampleLintResults : LintResults :=
  { ran := true, passed := true, errors := 0, warnings := 0, output := "" }

/-- Example self-review: confidence 90, assessment approve, no issues and
no risks. -/
def exampleReview : ReviewResult :=
  { summary := "looks good", issues := [], suggestions := [], risks := [],
    overallAssessment := Assessment.approve, confidence := 90 }

/-- Example plan: three tasks with no dependency- or behavior-risk
keywords in any file name or detail text, and no plan risks. -/
def examplePlan : Plan :=
  { summary := "s", approach := "a",
    tasks :=
      [{ id := 1, type := "modify", file := "src/a.ts", description := "d",
         details := "adjust logic", dependencies := [] },
       { id := 2, type := "modify", file := "src/b.ts", description := "d",
         details := "adjust logic", dependencies := [] },
       { id := 3, type := "create", file := "src/c.ts", description := "d",
         details := "add helper", dependencies := [] }],
    testStrategy := "t", risks := [] }

/-- C1: `calculateConfidenceScore` is a pure function whose overall score
equals `round(0.30*testsPassing + 0.10*lintClean + 0.20*changeComplexity +
0.15*dependencyRisk + 0.15*behaviorRisk + 0.10*selfReview)` clamped to
[0,100]; on the specification's example input the sub-scores are
100/100/100/100/100/90 and the overall score is 99. -/
theorem C1_confidence_formula_and_example :
    (∀ (tr : List TaskResult) (te : TestResults) (li : LintResults)
       (rv : ReviewResult) (pl : Plan),
      (calculateConfidenceScore tr te li rv pl).score =
        max 0 (min 100 (jsRound
          (0.30 * calculateTestScore te + 0.10 * calculateLintScore li +
           0.20 * calculateComplexityScore tr pl +
           0.15 * calculateDependencyScore pl +
           0.15 * calculateBehaviorScore pl rv +
           0.10 * calculateSelfReviewScore rv))) ∧
      0 ≤ (calculateConfidenceScore tr te li rv pl).score ∧
      (calculateConfidenceScore tr te li rv pl).score ≤ 100) ∧
    calculateConfidenceScore exampleTaskResults exampleTestResults exampleLintResults
        exampleReview examplePlan =
      { score := 99,
        breakdown :=
          { testsPassing := 100, lintClean := 100, changeComplexity := 100,
            dependencyRisk := 100, behaviorRisk := 100, selfReview := 90 } } := by
  constructor
  · intro tr te li rv pl
    refine ⟨?_, ?_, ?_⟩
    · show max 0 (min 100 (jsRound _)) = max 0 (min 100 (jsRound _))
      congr 2
      congr 1
      simp only [weightTestsPassing, weightLintClean, weightChangeComplexity,
        weightDependencyRisk, weightBehaviorRisk, weightSelfReview]
      ring
    · exact le_max_left 0 _
    · exact max_le (by norm_num) (min_le_left 100 _)
  · have h1 : calculateTestScore exampleTestResults = 100 := rfl
    have h2 : calculateLintScore exampleLintResults = 100 := rfl
    have h3 : calculateComplexityScore exampleTaskResults examplePlan = 100 := by
      have e1 : (exampleTaskResults.filter fun t => t.success).length = 3 := rfl
      have e2 : (exampleTaskResults.filter fun t =>
          t.success && t.action != Action.skipped).length = 3 := rfl
      simp only [calculateComplexityScore, e1, e2]
      norm_num [examplePlan]
    have h4 : calculateDependencyScore examplePlan = 100 := by decide
    have h5 : calculateBehaviorScore examplePlan exampleReview = 100 := by decide
    have h6 : calculateSelfReviewScore exampleReview = 90 := by decide
    simp only [calculateConfidenceScore, h1, h2, h3, h4, h5, h6,
      weightTestsPassing, weightLintClean, weightChangeComplexity,
      weightDependencyRisk, weightBehaviorRisk, weightSelfReview,
      ConfidenceOutcome.mk.injEq, ConfidenceBreakdown.mk.injEq, jsRound]
    norm_num

/-- C6: `validatePlan` reports an error entry for every dependency that
does not exist in the plan and for every dependency not strictly below the
depending task's id, collecting all violations; `valid` holds exactly when
the error list is empty, and a fully valid plan yields an empty list. -/
theorem C6_validatePlan_reports_violations :
    ∀ (plan : Plan),
      ((validatePlan plan).valid = true ↔ (validatePlan plan).errors = []) ∧
      (∀ t ∈ plan.tasks, ∀ d ∈ t.dependencies,
        (d ∉ plan.tasks.map (·.id) →
          s!"Task {t.id} depends on non-existent task {d}" ∈ (validatePlan plan).errors) ∧
        (t.id ≤ d →
          s!"Task {t.id} has forward dependency on task {d}" ∈ (validatePlan plan).errors)) ∧
      ((∀ t ∈ plan.tasks, ∀ d ∈ t.dependencies,
          d ∈ plan.tasks.map (·.id) ∧ d < t.id) →
        (validatePlan plan).errors = []) := by
  intro plan
  refine ⟨?_, ?_, ?_⟩
  · simp only [validatePlan, beq_iff_eq, List.length_eq_zero]
  · intro t ht d hd
    constructor
    · intro hno
      have hc : (plan.tasks.map (·.id)).contains d = false := by
        rw [← Bool.not_eq_true, List.elem_iff]
        exact hno
      simp only [validatePlan, List.mem_flatMap]
      refine ⟨t, ht, d, hd, ?_⟩
      rw [hc]
      simp
    · intro hge
      simp only [validatePlan, List.mem_flatMap]
      refine ⟨t, ht, d, hd, ?_⟩
      rw [List.mem_append]
      right
      simp [hge]
  · intro hvalid
    simp only [validatePlan]
    rw [List.flatMap_eq_nil_iff]
    intro t ht
    rw [List.flatMap_eq_nil_iff]
    intro d hd
    obtain ⟨hmem, hlt⟩ := hvalid t ht d hd
    have hc : (plan.tasks.map (·.id)).contains d = true := by
      rw [List.elem_iff]; exact hmem
    rw [hc]
    simp [Nat.not_le.mpr hlt]

section PolicyLemmas

variable (config : HavocConfig) (score : ℤ) (te : TestResults) (li : LintResults)
  (rv : ReviewResult)

/-- The required flag of the test gate is `true` in both branches. -/
theorem checkTestGate_required : (checkTestGate config te).required = true := by
  unfold checkTestGate
  split <;> rfl

/-- The confidence gate is required. -/
theorem checkConfidenceGate_required : (checkConfidenceGate config score).required = true := rfl

/-- The review gate is required. -/
theorem checkReviewGate_required : (checkReviewGate rv).required = true := rfl

/-- The test gate auto-passes when tests did not run. -/
theorem checkTestGate_passed_of_not_ran (h : te.ran = false) :
    (checkTestGate config te).passed = true := by
  unfold checkTestGate
  rw [h]
  rfl

/-- Characterization of the test-gate outcome. -/
theorem checkTestGate_passed_iff :
    (checkTestGate config te).passed = true ↔
      te.ran = false ∨ config.min_test_pass_rate ≤ te.pass_rate := by
  unfold checkTestGate
  cases h : te.ran <;> simp [h]

/-- Characterization of the confidence-gate outcome. -/
theorem checkConfidenceGate_passed_iff :
    (checkConfidenceGate config score).passed = true ↔
      config.min_confidence ≤ (score : ℚ) := by
  simp [checkConfidenceGate, ge_iff_le]

/-- Characterization of the review-gate outcome. -/
theorem checkReviewGate_passed_iff :
    (checkReviewGate rv).passed = true ↔
      ∀ i ∈ rv.issues, i.severity ≠ Severity.critical := by
  simp [checkReviewGate, List.length_eq_zero, List.filter_eq_nil_iff]

end PolicyLemmas

/-- C2: `checkPolicyGates` passes iff no required gate failed; a confidence
score strictly below `min_confidence` yields `passed = false` with the
confidence gate's message among the blockers; a run failing only the
optional gates still passes, with those gates' messages among the
warnings; and the required Test Pass Rate gate passes automatically
whenever tests did not run. -/
theorem C2_checkPolicyGates_aggregation :
    ∀ (config : HavocConfig) (score : ℤ) (te : TestResults) (li : LintResults)
      (rv : ReviewResult),
      ((checkPolicyGates config score te li rv).passed = true ↔
        ∀ g ∈ (checkPolicyGates config score te li rv).gates,
          g.required = true → g.passed = true) ∧
      ((score : ℚ) < config.min_confidence →
        (checkPolicyGates config score te li rv).passed = false ∧
        (checkConfidenceGate config score).message ∈
          (checkPolicyGates config score te li rv).blockers) ∧
      (config.min_confidence ≤ (score : ℚ) →
        (te.ran = false ∨ config.min_test_pass_rate ≤ te.pass_rate) →
        (∀ i ∈ rv.issues, i.severity ≠ Severity.critical) →
        (checkPolicyGates config score te li rv).passed = true ∧
        (te.ran = false →
          (checkTestsRanGate te).message ∈ (checkPolicyGates config score te li rv).warnings) ∧
        (li.passed = false →
          (checkLintGate li).message ∈ (checkPolicyGates config score te li rv).warnings) ∧
        (rv.overallAssessment = Assessment.request_changes →
          (checkAssessmentGate rv).message ∈ (checkPolicyGates config score te li rv).warnings)) ∧
      (te.ran = false →
        checkTestGate config te ∈ (checkPolicyGates config score te li rv).gates ∧
        (checkTestGate config te).required = true ∧
        (checkTestGate config te).passed = true) := by
  intro config score te li rv
  refine ⟨?_, ?_, ?_, ?_⟩
  · cases h1 : (checkConfidenceGate config score).passed <;>
    cases h2 : (checkTestGate config te).passed <;>
    cases h5 : (checkReviewGate rv).passed <;>
      simp [checkPolicyGates, h1, h2, h5, checkTestsRanGate, checkLintGate,
        checkAssessmentGate, checkTestGate_required, checkConfidenceGate_required,
        checkReviewGate_required]
  · intro hlt
    have h1 : (checkConfidenceGate config score).passed = false := by
      rw [← Bool.not_eq_true, checkConfidenceGate_passed_iff]
      exact not_le.mpr hlt
    constructor
    · simp [checkPolicyGates, h1]
    · simp [checkPolicyGates, h1]
  · intro hconf htest hrev
    have h1 : (checkConfidenceGate config score).passed = true :=
      (checkConfidenceGate_passed_iff config score).mpr hconf
    have h2 : (checkTestGate config te).passed = true :=
      (checkTestGate_passed_iff config te).mpr htest
    have h5 : (checkReviewGate rv).passed = true :=
      (checkReviewGate_passed_iff rv).mpr hrev
    refine ⟨by simp [checkPolicyGates, h1, h2, h5], ?_, ?_, ?_⟩
    · intro hran
      simp [checkPolicyGates, checkTestsRanGate, hran]
    · intro hlint
      simp [checkPolicyGates, checkLintGate, hlint]
    · intro hassess
      simp [checkPolicyGates, checkAssessmentGate, hassess]
  · intro hran
    exact ⟨by simp [checkPolicyGates], checkTestGate_required config te,
      checkTestGate_passed_of_not_ran config te hran⟩

/-! ## Glob-matching semantics for C9 -/

/-- Declarative matching relation for the regex `isFileProtected` builds
from a pattern containing `*`: `star` matches any sequence of characters,
`anyc` exactly one character, `lit c` the character `c`. -/
inductive GlobMatches : List GTok → List Char → Prop where
  | nil : GlobMatches [] []
  | lit {c : Char} {ps : List GTok} {s : List Char} :
      GlobMatches ps s → GlobMatches (GTok.lit c :: ps) (c :: s)
  | anyc {c : Char} {ps : List GTok} {s : List Char} :
      GlobMatches ps s → GlobMatches (GTok.anyc :: ps) (c :: s)
  | starEmp {ps : List GTok} {s : List Char} :
      GlobMatches ps s → GlobMatches (GTok.star :: ps) s
  | starCons {c : Char} {ps : List GTok} {s : List Char} :
      GlobMatches (GTok.star :: ps) s → GlobMatches (GTok.star :: ps) (c :: s)

/-- The fueled matcher is sound and complete for `GlobMatches` whenever the
fuel strictly exceeds the combined length of pattern and string. -/
theorem globMatchF_iff :
    ∀ (fuel : Nat) (ps : List GTok) (s : List Char),
      ps.length + s.length < fuel →
      (globMatchF fuel ps s = true ↔ GlobMatches ps s) := by
  intro fuel
  induction fuel with
  | zero => intro ps s h; omega
  | succ n ih =>
    intro ps s h
    match ps with
    | [] =>
      simp only [globMatchF, List.isEmpty_iff]
      constructor
      · rintro rfl; exact GlobMatches.nil
      · rintro hg
        cases hg
        rfl
    | GTok.star :: ps' =>
      simp only [globMatchF, Bool.or_eq_true]
      constructor
      · rintro (h1 | h2)
        · exact GlobMatches.starEmp ((ih ps' s (by simp at h ⊢; omega)).mp h1)
        · match s, h2 with
          | c :: s', h2 =>
            exact GlobMatches.starCons
              ((ih (GTok.star :: ps') s' (by simp at h ⊢; omega)).mp h2)
      · intro hg
        cases hg with
        | starEmp hm =>
          exact Or.inl ((ih ps' s (by simp at h ⊢; omega)).mpr hm)
        | starCons hm =>
          exact Or.inr ((ih (GTok.star :: _) _ (by simp at h ⊢; omega)).mpr hm)
    | GTok.anyc :: ps' =>
      constructor
      · intro h1
        match s, h1 with
        | c :: s', h1 =>
          exact GlobMatches.anyc ((ih ps' s' (by simp at h ⊢; omega)).mp h1)
      · intro hg
        cases hg with
        | anyc hm =>
          exact (ih ps' _ (by simp at h ⊢; omega)).mpr hm
    | GTok.lit c :: ps' =>
      constructor
      · intro h1
        match s, h1 with
        | d :: s', h1 =>
          simp only [globMatchF, Bool.and_eq_true, beq_iff_eq] at h1
          obtain ⟨rfl, h1⟩ := h1
          exact GlobMatches.lit ((ih ps' s' (by simp at h ⊢; omega)).mp h1)
      · intro hg
        cases hg with
        | lit hm =>
          have hrec := (ih ps' _ (by simp at h ⊢; omega)).mpr hm
          simp [globMatchF, hrec]

/-- `globMatch` decides `GlobMatches`. -/
theorem globMatch_iff (ps : List GTok) (s : List Char) :
    globMatch ps s = true ↔ GlobMatches ps s :=
  globMatchF_iff _ ps s (by omega)

/-- C9 counterexample: with protected pattern `config.?` (which contains
`?` but no `*`), the file `config.x` — differing from the pattern only at
the `?` position — is *not* reported as protected. -/
theorem C9_cex_question_mark_literal :
    isFileProtected "config.x"
      { DEFAULT_HAVOC_CONFIG with protected_files := ["config.?"] } = false := by
  decide

/-- C9 (amended): a pattern containing `*` is interpreted as a glob in
which `*` matches any sequence of characters and `?` (like `.`) matches any
single character, while a pattern containing no `*` — even one containing
`?` — is matched only by exact equality or prefix, with `?` treated as a
literal character. -/
theorem C9_isFileProtected_semantics :
    ∀ (config : HavocConfig) (f : String),
      isFileProtected f config = true ↔
        ∃ p ∈ config.protected_files,
          (p.data.contains '*' = true ∧ GlobMatches (parseGlob p.data) f.data) ∨
          (p.data.contains '*' = false ∧
            (f = p ∨ p.data.isPrefixOf f.data = true)) := by
  intro config f
  simp only [isFileProtected, List.any_eq_true]
  refine exists_congr fun p => and_congr_right fun _ => ?_
  cases hstar : p.data.contains '*' with
  | true =>
    simp only [hstar, if_true, globMatch_iff]
    simp
  | false =>
    simp only [hstar, if_false, Bool.or_eq_true, beq_iff_eq, strStarts]
    simp

/-! ## Correctness development for `sortTasks` (C5) -/

/-- Ids of the tasks emitted so far. -/
def sortedIds (st : SortState) : List Nat := st.sorted.map (·.id)

/-- Dependency-closedness of an emitted list: every declared dependency of
every element is the id of some strictly earlier element. -/
def Closed (l : List Task) : Prop :=
  ∀ (j : Nat) (hj : j < l.length), ∀ d ∈ (l.get ⟨j, hj⟩).dependencies,
    ∃ (i : Nat) (hi : i < l.length), i < j ∧ (l.get ⟨i, hi⟩).id = d

/-- Invariant maintained by the traversal of `sortTasks`. -/
structure GoodState (tasks : List Task) (st : SortState) : Prop where
  sortedSub : ∀ t ∈ st.sorted, t ∈ tasks
  sortedNodup : (sortedIds st).Nodup
  sortedVisited : ∀ t ∈ st.sorted, t.id ∈ st.visited
  closed : Closed st.sorted

/-- An id that has been visited but whose task has not been emitted yet
(the ids of the calls currently on the recursion stack). -/
def ActiveId (st : SortState) (v : Nat) : Prop :=
  v ∈ st.visited ∧ v ∉ sortedIds st

/-- Unfolding lemma for `visit` at zero fuel. -/
theorem visit_zero (tasks : List Task) (id : Nat) (st : SortState) :
    visit tasks 0 id st = st := rfl

/-- Unfolding lemma for `visit` at positive fuel. -/
theorem visit_succ (tasks : List Task) (n id : Nat) (st : SortState) :
    visit tasks (n + 1) id st =
      if id ∈ st.visited then st
      else
        let st1 : SortState := { st with visited := id :: st.visited }
        match taskMapGet tasks id with
        | none => st1
        | some task =>
          let st2 := task.dependencies.foldl (fun s dep => visit tasks n dep s) st1
          { st2 with sorted := st2.sorted ++ [task] } := rfl

/-- The fold inside `taskMapGet` only returns elements of the list, with
the looked-up id. -/
theorem taskMapGet_fold_mem (id : Nat) :
    ∀ (l : List Task) (acc : Option Task) (t : Task),
      l.foldl (fun acc u => if u.id = id then some u else acc) acc = some t →
      acc = some t ∨ (t ∈ l ∧ t.id = id) := by
  intro l
  induction l with
  | nil => intro acc t h; exact Or.inl h
  | cons x xs ih =>
    intro acc t h
    rcases ih _ t h with h1 | h2
    · by_cases hx : x.id = id
      · dsimp only at h1
        rw [if_pos hx] at h1
        cases h1
        exact Or.inr ⟨List.mem_cons_self x xs, hx⟩
      · dsimp only at h1
        rw [if_neg hx] at h1
        exact Or.inl h1
    · exact Or.inr ⟨List.mem_cons_of_mem x h2.1, h2.2⟩

/-- A successful `taskMapGet` lookup returns a task of the list carrying
the looked-up id. -/
theorem taskMapGet_mem {tasks : List Task} {id : Nat} {t : Task}
    (h : taskMapGet tasks id = some t) : t ∈ tasks ∧ t.id = id := by
  rcases taskMapGet_fold_mem id tasks none t h with h1 | h2
  · cases h1
  · exact h2

/-- `taskMapGet` succeeds on every id of the list. -/
theorem taskMapGet_isSome (tasks : List Task) (id : Nat)
    (h : id ∈ tasks.map (·.id)) : ∃ t, taskMapGet tasks id = some t := by
  obtain ⟨u, hu, huid⟩ := List.mem_map.mp h
  have key : ∀ (l : List Task) (acc : Option Task),
      (∃ a, acc = some a) ∨ (∃ v ∈ l, v.id = id) →
      ∃ t, l.foldl (fun acc u => if u.id = id then some u else acc) acc = some t := by
    intro l
    induction l with
    | nil =>
      rintro acc (⟨a, rfl⟩ | ⟨v, hv, _⟩)
      · exact ⟨a, rfl⟩
      · cases hv
    | cons x xs ih =>
      rintro acc h
      by_cases hx : x.id = id
      · exact ih _ (Or.inl ⟨x, by simp [hx]⟩)
      · rcases h with ⟨a, rfl⟩ | ⟨v, hv, hvid⟩
        · exact ih _ (Or.inl ⟨a, by simp [hx]⟩)
        · rcases List.mem_cons.mp hv with rfl | hv'
          · exact absurd hvid hx
          · exact ih _ (Or.inr ⟨v, hv', hvid⟩)
  exact key tasks none (Or.inr ⟨u, hu, huid⟩)

/-- `visit` only ever appends tasks of the input list, for every input —
in particular a dependency id with no matching task contributes nothing. -/
theorem visit_sub (tasks : List Task) :
    ∀ (fuel id : Nat) (st : SortState),
      (∀ t ∈ st.sorted, t ∈ tasks) →
      ∀ t ∈ (visit tasks fuel id st).sorted, t ∈ tasks := by
  intro fuel
  induction fuel with
  | zero => intro id st h; simpa [visit_zero] using h
  | succ n ih =>
    intro id st h
    by_cases hv : id ∈ st.visited
    · simpa [visit_succ, hv] using h
    · cases hm : taskMapGet tasks id with
      | none => simpa [visit_succ, hv, hm] using h
      | some task =>
        have htask := (taskMapGet_mem hm).1
        have hfold : ∀ (l : List Nat) (s : SortState), (∀ t ∈ s.sorted, t ∈ tasks) →
            ∀ t ∈ (l.foldl (fun s d => visit tasks n d s) s).sorted, t ∈ tasks := by
          intro l
          induction l with
          | nil => intro s hs; simpa using hs
          | cons d ds ihl => intro s hs; exact ihl _ (ih d s hs)
        rw [visit_succ, if_neg hv, hm]
        intro t ht
        simp only [List.mem_append] at ht
        rcases ht with h1 | h2
        · exact hfold _ _ (by simpa using h) t h1
        · simp only [List.mem_singleton] at h2
          subst h2
          exact htask

/-- Key specification of `visit` on validated plans, by strong induction on
the visited id: starting from an invariant-satisfying state whose active
ids all exceed `id`, visiting `id` preserves the invariant, only appends to
the emitted list, only grows the visited set, leaves the active ids
unchanged, and ensures the task with this id has been emitted. -/
theorem visit_spec (tasks : List Task)
    (Hdeps : ∀ t ∈ tasks, ∀ d ∈ t.dependencies, d < t.id ∧ d ∈ tasks.map (·.id)) :
    ∀ (id fuel : Nat) (st : SortState),
      id < fuel →
      id ∈ tasks.map (·.id) →
      GoodState tasks st →
      (∀ v, ActiveId st v → id < v) →
      GoodState tasks (visit tasks fuel id st) ∧
      (∃ Δ, (visit tasks fuel id st).sorted = st.sorted ++ Δ) ∧
      (∀ v ∈ st.visited, v ∈ (visit tasks fuel id st).visited) ∧
      (∀ v, ActiveId (visit tasks fuel id st) v ↔ ActiveId st v) ∧
      id ∈ sortedIds (visit tasks fuel id st) := by
  intro id
  induction id using Nat.strong_induction_on with
  | _ id IH =>
  intro fuel st hfuel hid hgood hact
  obtain ⟨fuel, rfl⟩ : ∃ n, fuel = n + 1 := ⟨fuel - 1, by omega⟩
  by_cases hv : id ∈ st.visited
  · rw [visit_succ, if_pos hv]
    have hidin : id ∈ sortedIds st := by
      by_contra hno
      exact absurd (hact id ⟨hv, hno⟩) (lt_irrefl id)
    exact ⟨hgood, ⟨[], by simp⟩, fun v hv' => hv', fun v => Iff.rfl, hidin⟩
  · obtain ⟨task, hm⟩ := taskMapGet_isSome tasks id hid
    obtain ⟨htmem, htid⟩ := taskMapGet_mem hm
    have hdeps' : ∀ d ∈ task.dependencies, d < id ∧ d ∈ tasks.map (·.id) := by
      intro d hd
      have h' := Hdeps task htmem d hd
      rw [htid] at h'
      exact h'
    have hidnotsorted : id ∉ sortedIds st := by
      intro hin
      obtain ⟨t, htin, htid'⟩ := List.mem_map.mp hin
      exact hv (htid' ▸ hgood.sortedVisited t htin)
    have hactnotid : ∀ v, ActiveId st v → v ≠ id := by
      intro v hav
      exact Nat.ne_of_gt (hact v hav)
    set st1 : SortState := { st with visited := id :: st.visited } with hst1
    have hst1v : st1.visited = id :: st.visited := rfl
    have hst1ids : sortedIds st1 = sortedIds st := rfl
    have hgood1 : GoodState tasks st1 :=
      { sortedSub := hgood.sortedSub
        sortedNodup := hgood.sortedNodup
        sortedVisited := fun t ht => List.mem_cons.mpr (Or.inr (hgood.sortedVisited t ht))
        closed := hgood.closed }
    have hact1 : ∀ v, ActiveId st1 v ↔ (v = id ∨ ActiveId st v) := by
      intro v
      unfold ActiveId
      rw [hst1v, hst1ids]
      constructor
      · rintro ⟨hvv, hvs⟩
        rcases List.mem_cons.mp hvv with rfl | hvv'
        · exact Or.inl rfl
        · exact Or.inr ⟨hvv', hvs⟩
      · rintro (rfl | ⟨hvv, hvs⟩)
        · exact ⟨List.mem_cons.mpr (Or.inl rfl), hidnotsorted⟩
        · exact ⟨List.mem_cons.mpr (Or.inr hvv), hvs⟩
    have hfold : ∀ (l : List Nat), (∀ d ∈ l, d < id ∧ d ∈ tasks.map (·.id)) →
        ∀ (s : SortState), GoodState tasks s →
        (∀ v, ActiveId s v ↔ (v = id ∨ ActiveId st v)) →
        GoodState tasks (l.foldl (fun s dep => visit tasks fuel dep s) s) ∧
        (∃ Δ, (l.foldl (fun s dep => visit tasks fuel dep s) s).sorted = s.sorted ++ Δ) ∧
        (∀ v ∈ s.visited, v ∈ (l.foldl (fun s dep => visit tasks fuel dep s) s).visited) ∧
        (∀ v, ActiveId (l.foldl (fun s dep => visit tasks fuel dep s) s) v ↔
          (v = id ∨ ActiveId st v)) ∧
        (∀ d ∈ l, d ∈ sortedIds (l.foldl (fun s dep => visit tasks fuel dep s) s)) := by
      intro l
      induction l with
      | nil =>
        intro _ s hgs has
        exact ⟨hgs, ⟨[], by simp⟩, fun v hvv => hvv, has, fun d hd => absurd hd (List.not_mem_nil d)⟩
      | cons d ds ihl =>
        intro hl s hgs has
        have hd := hl d (List.mem_cons_self d ds)
        have hvis := IH d hd.1 fuel s (by omega) hd.2 hgs (by
          intro v hav
          rcases (has v).mp hav with rfl | hav'
          · exact hd.1
          · exact Nat.lt_trans hd.1 (hact v hav'))
        obtain ⟨g1, ⟨Δ1, e1⟩, m1, a1, s1mem⟩ := hvis
        have has' : ∀ v, ActiveId (visit tasks fuel d s) v ↔ (v = id ∨ ActiveId st v) :=
          fun v => (a1 v).trans (has v)
        have hrest := ihl (fun d' hd' => hl d' (List.mem_cons_of_mem d hd'))
          (visit tasks fuel d s) g1 has'
        obtain ⟨g2, ⟨Δ2, e2⟩, m2, a2, dmem2⟩ := hrest
        simp only [List.foldl_cons]
        refine ⟨g2, ⟨Δ1 ++ Δ2, by rw [e2, e1, List.append_assoc]⟩,
          fun v hvv => m2 v (m1 v hvv), a2, ?_⟩
        intro d' hd'
        rcases List.mem_cons.mp hd' with rfl | hd''
        · show d' ∈ (ds.foldl (fun s dep => visit tasks fuel dep s)
            (visit tasks fuel d' s)).sorted.map (·.id)
          rw [e2, List.map_append]
          exact List.mem_append_left _ s1mem
        · exact dmem2 d' hd''
    obtain ⟨g2, ⟨Δ2, e2⟩, m2, a2, alldeps⟩ :=
      hfold task.dependencies hdeps' st1 hgood1 hact1
    set s2 := task.dependencies.foldl (fun s dep => visit tasks fuel dep s) st1 with hs2
    have heq : visit tasks (fuel + 1) id st = { s2 with sorted := s2.sorted ++ [task] } := by
      rw [visit_succ, if_neg hv]
      dsimp only
      rw [hm]
    have hids2 : id ∉ sortedIds s2 := ((a2 id).mpr (Or.inl rfl)).2
    have hidvis2 : id ∈ s2.visited := m2 id (by
      rw [hst1v]
      exact List.mem_cons.mpr (Or.inl rfl))
    have hsortedIds' : sortedIds { s2 with sorted := s2.sorted ++ [task] } =
        sortedIds s2 ++ [id] := by
      simp [sortedIds, htid]
    rw [heq]
    refine ⟨?_, ?_, ?_, ?_, ?_⟩
    · refine
        { sortedSub := ?_
          sortedNodup := ?_
          sortedVisited := ?_
          closed := ?_ }
      · intro t ht
        rcases List.mem_append.mp ht with h1 | h1
        · exact g2.sortedSub t h1
        · rw [List.mem_singleton] at h1
          exact h1 ▸ htmem
      · rw [hsortedIds']
        simp [List.nodup_append, g2.sortedNodup, hids2]
      · intro t ht
        rcases List.mem_append.mp ht with h1 | h1
        · exact g2.sortedVisited t h1
        · rw [List.mem_singleton] at h1
          subst h1
          rw [htid]
          exact hidvis2
      · intro j hj d hd
        have hjlen : j < s2.sorted.length + 1 := by simpa using hj
        by_cases hjl : j < s2.sorted.length
        · rw [List.get_append j hjl] at hd
          obtain ⟨i, hi, hij, hieq⟩ := g2.closed j hjl d hd
          refine ⟨i, by simp; omega, hij, ?_⟩
          rw [List.get_append i hi]
          exact hieq
        · have hj' : j = s2.sorted.length := by omega
          subst hj'
          have hget : (s2.sorted ++ [task]).get ⟨s2.sorted.length, hj⟩ = task :=
            List.get_of_append rfl rfl
          rw [hget] at hd
          obtain ⟨u, hu, huid⟩ := List.mem_map.mp (alldeps d hd)
          obtain ⟨⟨i, hi⟩, hig⟩ := List.mem_iff_get.mp hu
          refine ⟨i, by simp; omega, hi, ?_⟩
          rw [List.get_append i hi, hig]
          exact huid
    · exact ⟨Δ2 ++ [task], by
        show s2.sorted ++ [task] = st.sorted ++ (Δ2 ++ [task])
        rw [e2, List.append_assoc]⟩
    · intro v hvv
      refine m2 v ?_
      rw [hst1v]
      exact List.mem_cons.mpr (Or.inr hvv)
    · intro v
      constructor
      · rintro ⟨hvv, hvs⟩
        rw [hsortedIds'] at hvs
        have hvs2 : v ∉ sortedIds s2 := fun hc => hvs (List.mem_append_left _ hc)
        have hvid : v ≠ id := by
          intro hvi
          exact hvs (List.mem_append_right _ (by simp [hvi]))
        rcases (a2 v).mp ⟨hvv, hvs2⟩ with rfl | hav
        · exact absurd rfl hvid
        · exact hav
      · intro hav
        have hvid := hactnotid v hav
        have h2 := (a2 v).mpr (Or.inr hav)
        refine ⟨h2.1, ?_⟩
        rw [hsortedIds']
        intro hc
        rcases List.mem_append.mp hc with h3 | h3
        · exact h2.2 h3
        · rw [List.mem_singleton] at h3
          exact hvid h3
    · rw [hsortedIds']
      exact List.mem_append_right _ (List.mem_singleton_self id)

/-- Every element of a list of naturals is bounded by the folded maximum. -/
theorem mem_le_foldr_max : ∀ (l : List Nat), ∀ x ∈ l, x ≤ l.foldr max 0 := by
  intro l
  induction l with
  | nil => intro x hx; cases hx
  | cons a as ih =>
    intro x hx
    rcases List.mem_cons.mp hx with rfl | hx'
    · exact le_max_left _ _
    · exact le_trans (ih x hx') (le_max_right _ _)

/-- Unconditionally, `visit` only ever appends to the emitted list. -/
theorem visit_appends (tasks : List Task) :
    ∀ (fuel id : Nat) (st : SortState),
      ∃ Δ, (visit tasks fuel id st).sorted = st.sorted ++ Δ := by
  intro fuel
  induction fuel with
  | zero => intro id st; exact ⟨[], by simp [visit_zero]⟩
  | succ n ih =>
    intro id st
    by_cases hv : id ∈ st.visited
    · exact ⟨[], by simp [visit_succ, hv]⟩
    · cases hm : taskMapGet tasks id with
      | none => exact ⟨[], by simp [visit_succ, hv, hm]⟩
      | some task =>
        have hfold : ∀ (l : List Nat) (s : SortState),
            ∃ Δ, (l.foldl (fun s d => visit tasks n d s) s).sorted = s.sorted ++ Δ := by
          intro l
          induction l with
          | nil => intro s; exact ⟨[], by simp⟩
          | cons d ds ihl =>
            intro s
            obtain ⟨Δa, ea⟩ := ihl (visit tasks n d s)
            obtain ⟨Δb, eb⟩ := ih d s
            exact ⟨Δb ++ Δa, by
              simp only [List.foldl_cons]
              rw [ea, eb, List.append_assoc]⟩
        obtain ⟨Δ, e⟩ := hfold task.dependencies { st with visited := id :: st.visited }
        refine ⟨Δ ++ [task], ?_⟩
        rw [visit_succ, if_neg hv]
        dsimp only
        rw [hm]
        show (task.dependencies.foldl (fun s dep => visit tasks n dep s)
          { st with visited := id :: st.visited }).sorted ++ [task] = st.sorted ++ (Δ ++ [task])
        rw [e]
        simp [List.append_assoc]

/-- The top-level loop of `sortTasks` on a validated plan: starting from an
invariant state with no active ids, folding `visit` over any sublist of the
tasks preserves the invariant and emits every processed task. -/
theorem sortTasks_loop (tasks : List Task)
    (Hdeps : ∀ t ∈ tasks, ∀ d ∈ t.dependencies, d < t.id ∧ d ∈ tasks.map (·.id)) :
    ∀ (l : List Task), (∀ t ∈ l, t ∈ tasks) →
      ∀ (s : SortState), GoodState tasks s → (∀ v, ¬ ActiveId s v) →
      GoodState tasks
        (l.foldl (fun st task => visit tasks (sortFuel tasks) task.id st) s) ∧
      (∀ v, ¬ ActiveId
        (l.foldl (fun st task => visit tasks (sortFuel tasks) task.id st) s) v) ∧
      (∀ t ∈ l, t.id ∈ sortedIds
        (l.foldl (fun st task => visit tasks (sortFuel tasks) task.id st) s)) := by
  intro l
  induction l with
  | nil =>
    intro _ s hg hna
    exact ⟨hg, hna, fun t ht => absurd ht (List.not_mem_nil t)⟩
  | cons t ts ih =>
    intro hsub s hg hna
    have htmem : t ∈ tasks := hsub t (List.mem_cons.mpr (Or.inl rfl))
    have hmem : t.id ∈ tasks.map (·.id) := List.mem_map_of_mem _ htmem
    have hidlt : t.id < sortFuel tasks := by
      have h1 : t.id ≤ (tasks.map (·.id)).foldr max 0 := mem_le_foldr_max _ _ hmem
      unfold sortFuel
      omega
    have hvs := visit_spec tasks Hdeps t.id (sortFuel tasks) s hidlt hmem hg
      (fun v hav => absurd hav (hna v))
    obtain ⟨g1, ⟨Δ1, e1⟩, m1, a1, tmem⟩ := hvs
    have hna' : ∀ v, ¬ ActiveId (visit tasks (sortFuel tasks) t.id s) v :=
      fun v hav => hna v ((a1 v).mp hav)
    have hrest := ih (fun u hu => hsub u (List.mem_cons.mpr (Or.inr hu))) _ g1 hna'
    obtain ⟨g2, na2, mem2⟩ := hrest
    -- the tail fold only appends, so emitted membership persists
    have hmono : ∀ (l' : List Task) (s' : SortState),
        ∃ Δ, (l'.foldl (fun st task => visit tasks (sortFuel tasks) task.id st) s').sorted
          = s'.sorted ++ Δ := by
      intro l'
      induction l' with
      | nil => intro s'; exact ⟨[], by simp⟩
      | cons u us ihu =>
        intro s'
        obtain ⟨Δa, ea⟩ := ihu (visit tasks (sortFuel tasks) u.id s')
        obtain ⟨Δb, eb⟩ := visit_appends tasks (sortFuel tasks) u.id s'
        exact ⟨Δb ++ Δa, by simp only [List.foldl_cons]; rw [ea, eb, List.append_assoc]⟩
    simp only [List.foldl_cons]
    refine ⟨g2, na2, ?_⟩
    intro u hu
    rcases List.mem_cons.mp hu with rfl | hu'
    · obtain ⟨Δ2, e2⟩ := hmono ts (visit tasks (sortFuel tasks) u.id s)
      show u.id ∈ (ts.foldl (fun st task => visit tasks (sortFuel tasks) task.id st)
        (visit tasks (sortFuel tasks) u.id s)).sorted.map (·.id)
      rw [e2, List.map_append]
      exact List.mem_append_left _ tmem
    · exact mem2 u hu'

/-- First task of the duplicate-id counterexample plan. -/
def dupTaskA : Task :=
  { id := 1, type := "create", file := "a.ts", description := "a", details := "a",
    dependencies := [] }

/-- Second task of the duplicate-id counterexample plan: same id, different file. -/
def dupTaskB : Task :=
  { id := 1, type := "create", file := "b.ts", description := "b", details := "b",
    dependencies := [] }

/-- The duplicate-id counterexample plan. -/
def dupPlan : Plan :=
  { summary := "", approach := "", tasks := [dupTaskA, dupTaskB],
    testStrategy := "", risks := [] }

/-- C5 counterexample: `validatePlan` accepts a plan with two distinct tasks
sharing one id (every dependency exists and is strictly smaller — vacuously),
yet `sortTasks` does not return every input task exactly once: it drops one
of the two tasks, so its output is not a permutation of the input. -/
theorem C5_cex_duplicate_ids :
    (validatePlan dupPlan).valid = true ∧
    ¬ (sortTasks dupPlan.tasks).Perm dupPlan.tasks := by
  decide

/-- C5 (amended): for every task list, `sortTasks` terminates and emits only
input tasks (a dependency id with no matching task is simply skipped); and
when the task ids are pairwise distinct and `validatePlan`'s conditions hold
(every dependency id exists in the plan and is strictly below the dependent
task's id), `sortTasks` returns a permutation of the input in which every
task appears after all of its declared dependencies. -/
theorem C5_sortTasks_topological :
    ∀ (tasks : List Task),
      (∀ t ∈ sortTasks tasks, t ∈ tasks) ∧
      ((tasks.map (·.id)).Nodup →
        (∀ t ∈ tasks, ∀ d ∈ t.dependencies, d < t.id ∧ d ∈ tasks.map (·.id)) →
        (sortTasks tasks).Perm tasks ∧
        (∀ (j : Nat) (hj : j < (sortTasks tasks).length),
          ∀ d ∈ ((sortTasks tasks).get ⟨j, hj⟩).dependencies,
          ∃ (i : Nat) (hi : i < (sortTasks tasks).length),
            i < j ∧ ((sortTasks tasks).get ⟨i, hi⟩).id = d)) := by
  intro tasks
  constructor
  · have key : ∀ (l : List Task) (s : SortState), (∀ t ∈ s.sorted, t ∈ tasks) →
        ∀ t ∈ (l.foldl (fun st task => visit tasks (sortFuel tasks) task.id st) s).sorted,
          t ∈ tasks := by
      intro l
      induction l with
      | nil => intro s hs; simpa using hs
      | cons x xs ih =>
        intro s hs
        exact ih _ (visit_sub tasks (sortFuel tasks) x.id s hs)
    intro t ht
    exact key tasks { sorted := [], visited := [] }
      (fun u hu => absurd hu (List.not_mem_nil u)) t ht
  · intro Hnodup Hdeps
    have hinit : GoodState tasks { sorted := [], visited := [] } :=
      { sortedSub := fun t ht => absurd ht (List.not_mem_nil t)
        sortedNodup := List.nodup_nil
        sortedVisited := fun t ht => absurd ht (List.not_mem_nil t)
        closed := fun j hj => absurd hj (by simp) }
    have hnoact : ∀ v, ¬ ActiveId { sorted := [], visited := [] } v := by
      rintro v ⟨hv, _⟩
      exact absurd hv (List.not_mem_nil v)
    obtain ⟨gf, _, allmem⟩ :=
      sortTasks_loop tasks Hdeps tasks (fun t ht => ht)
        { sorted := [], visited := [] } hinit hnoact
    constructor
    · have h1 : (sortTasks tasks).Nodup := List.Nodup.of_map _ gf.sortedNodup
      have h2 : tasks.Nodup := List.Nodup.of_map _ Hnodup
      refine (List.perm_ext_iff_of_nodup h1 h2).mpr ?_
      intro a
      constructor
      · intro ha
        exact gf.sortedSub a ha
      · intro ha
        obtain ⟨u, hu, huid⟩ := List.mem_map.mp (allmem a ha)
        have hu' : u ∈ tasks := gf.sortedSub u hu
        have hua : u = a := List.inj_on_of_nodup_map Hnodup hu' ha huid
        rwa [← hua]
    · intro j hj d hd
      exact gf.closed j hj d hd

/-! ## Effect monad over a recording world

`async` code is embedded in the monad `M`: a state-passing function over a
`World` that records every observable collaborator call, returning
`Except String α` (`error` = a thrown JS exception, carrying its message).
A throw preserves the world accumulated so far, as completed database
writes and sandbox commands do in the source. -/

/-- Run status values persisted through `updateRunStatus`. -/
inductive RunStatus where
  | pending | cloning | analyzing | planning | editing | testing
  | reviewing | publishing | done | failed
  deriving Repr, DecidableEq

/-- The observable trace of a run: every collaborator call recorded in
order, per collaborator. -/
structure World where
  events : List String
  statusUpdates : List (RunStatus × Option String)
  runsCreated : List String
  plansSaved : List Plan
  artifactsSaved : Nat
  prsSaved : List (String × Nat × String)
  issueComments : List String
  prComments : List String
  execCalls : List (List String)
  cmdLog : List (String × ExecResult)
  llmCalls : List String
  cleanups : Nat
  sandboxCreated : Bool
  deriving Repr, DecidableEq

/-- The empty starting world. -/
def World.init : World :=
  { events := [], statusUpdates := [], runsCreated := [], plansSaved := []
    artifactsSaved := 0, prsSaved := [], issueComments := [], prComments := []
    execCalls := [], cmdLog := [], llmCalls := [], cleanups := 0
    sandboxCreated := false }

/-- The embedding monad. -/
def M (α : Type) : Type := World → Except String α × World

instance : Monad M where
  pure a := fun w => (Except.ok a, w)
  bind m f := fun w =>
    match m w with
    | (Except.ok a, w') => f a w'
    | (Except.error e, w') => (Except.error e, w')

/-- Throw a JS exception with the given message. -/
def mthrow {α : Type} (e : String) : M α := fun w => (Except.error e, w)

/-- `try { m } catch (e) { h e }`. -/
def mtryCatch {α : Type} (m : M α) (h : String → M α) : M α := fun w =>
  match m w with
  | (Except.ok a, w') => (Except.ok a, w')
  | (Except.error e, w') => h e w'

/-- `try { m } finally { fin }`: `fin` always runs; an exception thrown by
`fin` replaces the original outcome, as in JS. -/
def mfinally {α : Type} (m : M α) (fin : M Unit) : M α := fun w =>
  match m w with
  | (r, w') =>
    match fin w' with
    | (Except.ok _, w'') => (r, w'')
    | (Except.error e, w'') => (Except.error e, w'')

/-- Pull request metadata returned by the GitHub collaborator. -/
structure PullRequest where
  url : String
  number : Nat
  deriving Repr, DecidableEq

/-- Issue specification produced by the analyzer (`IssueSpec`). -/
structure IssueSpec where
  type : String
  summary : String
  requirements : List String
  affectedAreas : List String
  assumptions : List String
  outOfScope : List String
  acceptanceCriteria : List String
  deriving Repr, DecidableEq

/-- Codebase context gathered by the analyzer (`CodebaseContext`). -/
structure CodebaseContext where
  language : String
  framework : Option String
  testFramework : Option String
  relevantFiles : List String
  dependencies : List String
  deriving Repr, DecidableEq

/-- Full analysis result (`AnalysisResult`). -/
structure AnalysisResult where
  spec : IssueSpec
  context : CodebaseContext
  deriving Repr, DecidableEq

/-- Oracles fixing the outcome of every external collaborator call
(database, GitHub API, LLM, container runtime, host file system and the
LLM-backed stage functions).  `Except.error e` models the call throwing an
exception with message `e`. -/
structure Env where
  githubToken : String
  loadedConfig : HavocConfig
  pkgHasTestScript : String → Bool
  nowIso : String
  createRunRes : Except String Unit
  updateRunStatusRes : RunStatus → Option String → Except String Unit
  updateRunPlanRes : Except String Unit
  updateRunArtifactsRes : Except String Unit
  updateRunPRRes : Except String Unit
  createSandboxRes : Except String Unit
  sandboxExecRes : List String → Except String ExecResult
  getInstallationTokenRes : Except String String
  getDefaultBranchRes : Except String String
  analyzeIssueRes : Except String AnalysisResult
  createPlanRes : Except String Plan
  runTestsRes : Except String TestResults
  runLintRes : Except String LintResults
  selfReviewRes : Except String ReviewResult
  createPullRequestRes : Except String PullRequest
  addIssueCommentRes : String → Except String Unit
  addPRCommentRes : String → Except String Unit
  generateCodeRes : String → String → Except String String
  askRes : String → Except String String

/-- `emitRunEvent`: appends to the per-run buffer and notifies listeners;
it never throws (`run-events.ts`). -/
def emitEvent (msg : String) : M Unit := fun w =>
  (Except.ok (), { w with events := w.events ++ [msg] })

/-- `createRun` persistence call. -/
def dbCreateRun (env : Env) (repo : String) : M Unit := fun w =>
  (env.createRunRes, { w with runsCreated := w.runsCreated ++ [repo] })

/-- `updateRunStatus` persistence call. -/
def dbUpdateRunStatus (env : Env) (status : RunStatus) (error : Option String) : M Unit :=
  fun w =>
    (env.updateRunStatusRes status error,
     { w with statusUpdates := w.statusUpdates ++ [(status, error)] })

/-- `updateRunPlan` persistence call. -/
def dbUpdateRunPlan (env : Env) (plan : Plan) : M Unit := fun w =>
  (env.updateRunPlanRes, { w with plansSaved := w.plansSaved ++ [plan] })

/-- `updateRunArtifacts` persistence call. -/
def dbUpdateRunArtifacts (env : Env) : M Unit := fun w =>
  (env.updateRunArtifactsRes, { w with artifactsSaved := w.artifactsSaved + 1 })

/-- `updateRunPR` persistence call. -/
def dbUpdateRunPR (env : Env) (url : String) (number : Nat) (branch : String) : M Unit :=
  fun w =>
    (env.updateRunPRRes, { w with prsSaved := w.prsSaved ++ [(url, number, branch)] })

/-- `createSandbox`: marks the local `sandbox` variable non-null on success. -/
def sandboxCreate (env : Env) : M Unit := fun w =>
  match env.createSandboxRes with
  | Except.ok _ => (Except.ok (), { w with sandboxCreated := true })
  | Except.error e => (Except.error e, w)

/-- `sandbox.exec(argv)`: records the attempted invocation and yields the
oracle's outcome (a `TimeoutError` or runtime failure is a throw). -/
def sandboxExec (env : Env) (argv : List String) : M ExecResult := fun w =>
  (env.sandboxExecRes argv, { w with execCalls := w.execCalls ++ [argv] })

/-- `sandbox.cleanup()`: `cleanupSandbox` wraps container stop/removal and
workspace removal in `try`/`catch` blocks of its own, so it never throws. -/
def sandboxCleanup : M Unit := fun w =>
  (Except.ok (), { w with cleanups := w.cleanups + 1 })

/-- `getInstallationToken`. -/
def ghGetInstallationToken (env : Env) : M String := fun w =>
  (env.getInstallationTokenRes, w)

/-- `getDefaultBranch`. -/
def ghGetDefaultBranch (env : Env) : M String := fun w =>
  (env.getDefaultBranchRes, w)

/-- `createPullRequest` (title, body, head branch and base branch are
consumed by the external collaborator). -/
def ghCreatePullRequest (env : Env) (_title _body _branch _base : String) :
    M PullRequest := fun w =>
  (env.createPullRequestRes, w)

/-- `addIssueComment`: records the attempted comment body. -/
def ghAddIssueComment (env : Env) (body : String) : M Unit := fun w =>
  (env.addIssueCommentRes body, { w with issueComments := w.issueComments ++ [body] })

/-- `addPRComment`: records the attempted comment body. -/
def ghAddPRComment (env : Env) (body : String) : M Unit := fun w =>
  (env.addPRCommentRes body, { w with prComments := w.prComments ++ [body] })

/-- `generateCode(instruction, context)` LLM call. -/
def llmGenerateCode (env : Env) (instruction context : String) : M String := fun w =>
  (env.generateCodeRes instruction context, { w with llmCalls := w.llmCalls ++ [instruction] })

/-- `ask(prompt)` LLM call. -/
def llmAsk (env : Env) (prompt : String) : M String := fun w =>
  (env.askRes prompt, { w with llmCalls := w.llmCalls ++ [prompt] })

/-- LLM-backed stage `analyzeIssue` (its prompt internals are outside the
claims; outcome fixed by the oracle). -/
def stageAnalyzeIssue (env : Env) : M AnalysisResult := fun w => (env.analyzeIssueRes, w)

/-- LLM-backed stage `createPlan`. -/
def stageCreatePlan (env : Env) : M Plan := fun w => (env.createPlanRes, w)

/-- Stage `runTests` of the test runner (install + run + parse; its output
parsing is outside the claims; outcome fixed by the oracle). -/
def stageRunTests (env : Env) : M TestResults := fun w => (env.runTestsRes, w)

/-- Stage `runLint`. -/
def stageRunLint (env : Env) : M LintResults := fun w => (env.runLintRes, w)

/-- LLM-backed stage `selfReview`. -/
def stageSelfReview (env : Env) : M ReviewResult := fun w => (env.selfReviewRes, w)

/-! ## Sandbox command runner (`sandbox/runner.ts`, working-directory
version constructed by the pipeline) -/

/-- Split a string on a single separator character, mirroring JS
`s.split(sep)` (so `"".split(sep)` is `[""]`). -/
def splitCharAux (sep : Char) : List Char → List Char → List String
  | [], cur => [String.mk cur.reverse]
  | c :: cs, cur =>
    if c = sep then String.mk cur.reverse :: splitCharAux sep cs []
    else splitCharAux sep cs (c :: cur)

/-- JS `s.split(sep)` for a one-character separator. -/
def splitChar (s : String) (sep : Char) : List String := splitCharAux sep s.data []

/-- JS `s.trim()`. -/
def strTrim (s : String) : String :=
  String.mk (((s.data.dropWhile Char.isWhitespace).reverse.dropWhile Char.isWhitespace).reverse)

/-- The runner's construction arguments: the per-repo configuration and the
working directory (`/workspace/repo` in the pipeline). -/
structure RunnerCtx where
  config : HavocConfig
  workingDir : String
  deriving Repr

/-- `parseCommand` from `runner.ts` (computed by `run` but unused there):
quote-aware whitespace splitting. -/
def parseCommand (command : String) : List String :=
  let step := fun (st : List String × String × Bool × Option Char) (c : Char) =>
    let (parts, current, inQuotes, quoteChar) := st
    if (c = '"' || c = '\'') && !inQuotes then (parts, current, true, some c)
    else if (some c == quoteChar) && inQuotes then (parts, current, false, none)
    else if (c = ' ') && !inQuotes then
      if current.length > 0 then (parts ++ [current], "", inQuotes, quoteChar)
      else (parts, current, inQuotes, quoteChar)
    else (parts, current.push c, inQuotes, quoteChar)
  let fin := command.data.foldl step ([], "", false, none)
  if fin.2.1.length > 0 then fin.1 ++ [fin.2.1] else fin.1

/-- Appends one entry to the runner's internal audit log
(`this.executedCommands.push`). -/
def pushCmdLog (command : String) (result : ExecResult) : M Unit := fun w =>
  (Except.ok (), { w with cmdLog := w.cmdLog ++ [(command, result)] })

/-- `getCommandLog` of the runner: the audit log of attempted commands. -/
def getCommandLog (w : World) : List (String × ExecResult) := w.cmdLog

/-- `SandboxRunner.run`: rejects a command that is not allow-listed with a
structured non-zero result, recording it in the audit log without touching
the sandbox; otherwise emits a `command` event, executes
`sh -c "cd <workingDir> && <command>"` in the sandbox, and logs the result. -/
def runnerRun (env : Env) (ctx : RunnerCtx) (command : String) : M ExecResult :=
  if isCommandAllowed command ctx.config then do
    let _parts := parseCommand command
    emitEvent command
    let result ← sandboxExec env ["sh", "-c", "cd " ++ ctx.workingDir ++ " && " ++ command]
    pushCmdLog command result
    pure result
  else do
    let result : ExecResult :=
      { exitCode := 1
        stdout := ""
        stderr := "Command not allowed: " ++ command ++ ". Allowed commands: " ++
          String.intercalate ", " ctx.config.allowed_commands }
    pushCmdLog command result
    pure result

/-- `SandboxRunner.getGitDiff`. -/
def runnerGetGitDiff (env : Env) : M String := do
  let result ← sandboxExec env ["git", "diff"]
  pure result.stdout

/-- `SandboxRunner.getStagedDiff`. -/
def runnerGetStagedDiff (env : Env) : M String := do
  let result ← sandboxExec env ["git", "diff", "--cached"]
  pure result.stdout

/-- `SandboxRunner.stageAll`: inspects `git status`, emits the event, runs
`git add .` and inspects what was staged. -/
def runnerStageAll (env : Env) : M ExecResult := do
  let _status ← sandboxExec env ["git", "status", "--porcelain"]
  emitEvent "git add ."
  let addResult ← sandboxExec env ["git", "add", "."]
  let _staged ← sandboxExec env ["git", "diff", "--cached", "--name-only"]
  pure addResult

/-- `SandboxRunner.commit`. -/
def runnerCommit (env : Env) (ctx : RunnerCtx) (message : String) : M ExecResult := do
  emitEvent ("git commit -m \"" ++ message ++ "\"")
  sandboxExec env
    ["sh", "-c", "cd " ++ ctx.workingDir ++ " && git commit -m \"" ++ message ++ "\""]

/-- Resolution of a path against the runner's working directory. -/
def fullPathOf (ctx : RunnerCtx) (filePath : String) : String :=
  if strStarts filePath "/" then filePath else ctx.workingDir ++ "/" ++ filePath

/-- `SandboxRunner.readFile`: `null` (here `none`) when `cat` fails. -/
def runnerReadFile (env : Env) (ctx : RunnerCtx) (filePath : String) : M (Option String) := do
  emitEvent ("read " ++ filePath)
  let result ← sandboxExec env ["cat", fullPathOf ctx filePath]
  if result.exitCode != 0 then pure none else pure (some result.stdout)

/-- The escaping of `SandboxRunner.writeFile`:
`content.replace(/\\/g, '\\\\').replace(/'/g, "'\\''")`, character-wise
(both patterns are single characters). -/
def escapeForWrite (content : String) : String :=
  String.mk
    (((content.data.flatMap fun c => if c = '\\' then ['\\', '\\'] else [c]).flatMap
      fun c => if c = '\'' then ['\'', '\\', '\'', '\''] else [c]))

/-- `SandboxRunner.writeFile`: writes through `printf`, then verifies the
file exists (reporting a verification failure as a non-zero result) and
reads its size for logging. -/
def runnerWriteFile (env : Env) (ctx : RunnerCtx) (filePath content : String) : M ExecResult := do
  let escapedContent := escapeForWrite content
  emitEvent ("write " ++ filePath)
  let fullPath := fullPathOf ctx filePath
  let result ← sandboxExec env
    ["sh", "-c", "printf '%s' '" ++ escapedContent ++ "' > " ++ fullPath]
  if result.exitCode == 0 then do
    let verifyResult ← sandboxExec env ["test", "-f", fullPath]
    if verifyResult.exitCode != 0 then
      pure { exitCode := 1, stdout := ""
             stderr := "File write verification failed for " ++ fullPath }
    else do
      let _size ← sandboxExec env ["sh", "-c", "wc -c < " ++ fullPath]
      pure result
  else
    pure result

/-- `SandboxRunner.mkdir`. -/
def runnerMkdir (env : Env) (ctx : RunnerCtx) (dirPath : String) : M ExecResult := do
  emitEvent ("mkdir " ++ dirPath)
  sandboxExec env ["mkdir", "-p", fullPathOf ctx dirPath]

/-! ## Task executor (`agents/editor.ts`) -/

/-- Node's `path.dirname` for the relative slash-separated paths the
executor handles: everything before the last `/`, else `.`. -/
def dirname (p : String) : String :=
  let parts := splitChar p '/'
  if parts.length ≤ 1 then "." else String.intercalate "/" parts.dropLast

/-- The per-task language/framework context handed to the executor. -/
structure EditorContext where
  language : String
  framework : Option String
  deriving Repr, DecidableEq

/-- `generateSimpleDiff`: naive line-by-line diff with a hunk header two
lines before the first divergence of a hunk. -/
def generateSimpleDiff (oldContent newContent filename : String) : String :=
  let oldLines := splitChar oldContent '\n'
  let newLines := splitChar newContent '\n'
  let maxLen := max oldLines.length newLines.length
  let step := fun (st : List String × Bool) (i : Nat) =>
    let (diff, inHunk) := st
    let oldLine := oldLines.get? i
    let newLine := newLines.get? i
    if oldLine ≠ newLine then
      let (diff, inHunk) :=
        if !inHunk then
          let hunkStart := i - 2
          (diff ++ ["@@ -" ++ toString (hunkStart + 1) ++ " +" ++
            toString (hunkStart + 1) ++ " @@"], true)
        else (diff, inHunk)
      let diff := match oldLine with
        | some l => diff ++ ["-" ++ l]
        | none => diff
      let diff := match newLine with
        | some l => diff ++ ["+" ++ l]
        | none => diff
      (diff, inHunk)
    else if inHunk then (diff ++ [" " ++ (oldLine.getD "")], inHunk)
    else (diff, inHunk)
  let fin := (List.range maxLen).foldl step
    (["--- a/" ++ filename, "+++ b/" ++ filename], false)
  String.intercalate "\n" fin.1

/-- `combineDiffs`: join the (truthy) per-task diffs. -/
def combineDiffs (results : List TaskResult) : String :=
  String.intercalate "\n\n"
    ((results.filter fun r =>
        match r.diff with
        | none => false
        | some s => !s.isEmpty).map fun r => r.diff.getD "")

/-- `createFile`: ensure the parent directory, generate content, write it,
and report a synthetic new-file diff. -/
def createFile (env : Env) (ctx : RunnerCtx) (ectx : EditorContext) (task : Task) :
    M TaskResult := do
  let dir := dirname task.file
  if dir ≠ "" ∧ dir ≠ "." then do
    let _ ← runnerMkdir env ctx dir
    pure ()
  let code ← llmGenerateCode env task.details
    ("Language: " ++ ectx.language ++ ", Framework: " ++ ectx.framework.getD "None" ++
      ", File: " ++ task.file)
  let result ← runnerWriteFile env ctx task.file code
  if result.exitCode != 0 then
    pure { taskId := task.id, success := false, file := task.file,
           action := Action.skipped, error := some result.stderr }
  else
    pure { taskId := task.id, success := true, file := task.file,
           action := Action.created,
           diff := some ("+++ " ++ task.file ++ " (new file)\n" ++
             String.intercalate "\n" ((splitChar code '\n').map (fun l => "+ " ++ l))) }

/-- The modification prompt of `modifyFile`. -/
def modifyPrompt (task : Task) (existingContent : String) : String :=
  "You are modifying an existing file. Apply the following changes.\n\n## File: " ++
    task.file ++ "\n\n## Current Content\n```\n" ++ existingContent ++
    "\n```\n\n## Requested Changes\n" ++ task.details ++
    "\n\n## Instructions\n- Apply the requested changes to the file\n" ++
    "- Maintain the existing code style\n" ++
    "- Keep all existing functionality unless explicitly asked to change it\n" ++
    "- Output ONLY the complete modified file content, no explanations\n\n" ++
    "## Output\nReturn the complete modified file:"

/-- `modifyFile`: falls back to `createFile` when the file does not exist;
otherwise asks the LLM for the modified content, strips an enclosing code
fence, writes the result and diffs it against the old content. -/
def modifyFile (env : Env) (ctx : RunnerCtx) (ectx : EditorContext) (task : Task) :
    M TaskResult := do
  let existingContent ← runnerReadFile env ctx task.file
  match existingContent with
  | none => createFile env ctx ectx task
  | some existingContent => do
    let modifiedCode ← llmAsk env (modifyPrompt task existingContent)
    let cleanedCode := strTrim modifiedCode
    let cleanedCode :=
      if strStarts cleanedCode "```" then
        let lines := (splitChar cleanedCode '\n').drop 1
        let lines := if lines.getLast? == some "```" then lines.dropLast else lines
        String.intercalate "\n" lines
      else cleanedCode
    let result ← runnerWriteFile env ctx task.file cleanedCode
    if result.exitCode != 0 then
      pure { taskId := task.id, success := false, file := task.file,
             action := Action.skipped, error := some result.stderr }
    else
      pure { taskId := task.id, success := true, file := task.file,
             action := Action.modified,
             diff := some (generateSimpleDiff existingContent cleanedCode task.file) }

/-- `deleteFile`: removes the file through the allow-list-filtered runner;
a failure is reported as a skipped result, never thrown. -/
def deleteFile (env : Env) (ctx : RunnerCtx) (task : Task) : M TaskResult := do
  let result ← runnerRun env ctx ("rm -f " ++ task.file)
  if result.exitCode != 0 then
    pure { taskId := task.id, success := false, file := task.file,
           action := Action.skipped, error := some result.stderr }
  else
    pure { taskId := task.id, success := true, file := task.file,
           action := Action.deleted, diff := some ("--- " ++ task.file ++ " (deleted)") }

/-- `createTestFile`: like `createFile` with a test-specific instruction
prefix (and directory creation after generation, as in the source). -/
def createTestFile (env : Env) (ctx : RunnerCtx) (ectx : EditorContext) (task : Task) :
    M TaskResult := do
  let code ← llmGenerateCode env ("Write tests for: " ++ task.details)
    ("Language: " ++ ectx.language ++ ", Framework: " ++ ectx.framework.getD "None" ++
      ", Test file: " ++ task.file)
  let dir := dirname task.file
  if dir ≠ "" ∧ dir ≠ "." then do
    let _ ← runnerMkdir env ctx dir
    pure ()
  let result ← runnerWriteFile env ctx task.file code
  if result.exitCode != 0 then
    pure { taskId := task.id, success := false, file := task.file,
           action := Action.skipped, error := some result.stderr }
  else
    pure { taskId := task.id, success := true, file := task.file,
           action := Action.created,
           diff := some ("+++ " ++ task.file ++ " (new test file)\n" ++
             String.intercalate "\n" ((splitChar code '\n').map (fun l => "+ " ++ l))) }

/-- `executeTask`: the protected-file check runs first and short-circuits
to a skipped result; then the task kind is dispatched, with a default
branch for unknown kinds. -/
def executeTask (env : Env) (ctx : RunnerCtx) (ectx : EditorContext) (task : Task) :
    M TaskResult :=
  if isFileProtected task.file ctx.config then
    pure { taskId := task.id, success := false, file := task.file,
           action := Action.skipped, error := some ("File is protected: " ++ task.file) }
  else if task.type = "create" then createFile env ctx ectx task
  else if task.type = "modify" then modifyFile env ctx ectx task
  else if task.type = "delete" then deleteFile env ctx task
  else if task.type = "test" then createTestFile env ctx ectx task
  else
    pure { taskId := task.id, success := false, file := task.file,
           action := Action.skipped, error := some ("Unknown task type: " ++ task.type) }

/-- `executeTasks`: runs the tasks in order, emitting progress events and
converting any per-task exception into a skipped result — a task failure
never aborts the run. -/
def executeTasks (env : Env) (ctx : RunnerCtx) (ectx : EditorContext) :
    List Task → M (List TaskResult)
  | [] => pure []
  | task :: rest => do
    emitEvent ("Task " ++ toString task.id ++ ": " ++ task.description)
    let result ← mtryCatch
      (do
        let result ← executeTask env ctx ectx task
        if !result.success then
          emitEvent ("Task " ++ toString task.id ++ " failed: " ++
            result.error.getD "undefined")
        pure result)
      (fun message => do
        emitEvent ("Task " ++ toString task.id ++ " failed: " ++ message)
        pure { taskId := task.id, success := false, file := task.file,
               action := Action.skipped, error := some message })
    let restResults ← executeTasks env ctx ectx rest
    pure (result :: restResults)

/-- A benign concrete environment in which every collaborator call
succeeds with a default value (used to instantiate witnesses). -/
def exampleEnv : Env :=
  { githubToken := "tok"
    loadedConfig := DEFAULT_HAVOC_CONFIG
    pkgHasTestScript := fun _ => false
    nowIso := "2024-01-01T00:00:00.000Z"
    createRunRes := Except.ok ()
    updateRunStatusRes := fun _ _ => Except.ok ()
    updateRunPlanRes := Except.ok ()
    updateRunArtifactsRes := Except.ok ()
    updateRunPRRes := Except.ok ()
    createSandboxRes := Except.ok ()
    sandboxExecRes := fun _ => Except.ok { exitCode := 0, stdout := "", stderr := "" }
    getInstallationTokenRes := Except.ok "itok"
    getDefaultBranchRes := Except.ok "main"
    analyzeIssueRes := Except.ok
      { spec := { type := "bug", summary := "s", requirements := [], affectedAreas := []
                  assumptions := [], outOfScope := [], acceptanceCriteria := [] }
        context := { language := "TypeScript", framework := none, testFramework := none
                     relevantFiles := [], dependencies := [] } }
    createPlanRes := Except.ok
      { summary := "s", approach := "a", tasks := [], testStrategy := "t", risks := [] }
    runTestsRes := Except.ok
      { ran := true, passed := true, total := 1, passed_count := 1, failed_count := 0
        skipped_count := 0, pass_rate := 100, duration_ms := 1, output := "" }
    runLintRes := Except.ok
      { ran := true, passed := true, errors := 0, warnings := 0, output := "" }
    selfReviewRes := Except.ok
      { summary := "ok", issues := [], suggestions := [], risks := []
        overallAssessment := Assessment.approve, confidence := 90 }
    createPullRequestRes := Except.ok { url := "u", number := 1 }
    addIssueCommentRes := fun _ => Except.ok ()
    addPRCommentRes := fun _ => Except.ok ()
    generateCodeRes := fun _ _ => Except.ok "c"
    askRes := fun _ => Except.ok "c" }

/-! ## Theorems about the runner and the task executor (C3, C4, C10) -/

/-- The first token of a command contains no space. -/
theorem firstToken_no_space (command : String) : ' ' ∉ (firstToken command).data := by
  intro hc
  have := List.mem_takeWhile_imp hc
  simp at this

/-- When the first token of a command is not itself an allowed command,
`isCommandAllowed` rejects it: the `startsWith(allowed + ' ')` disjunct can
never fire because the first token contains no space. -/
theorem isCommandAllowed_false_of_not_mem (command : String) (config : HavocConfig)
    (h : firstToken command ∉ config.allowed_commands) :
    isCommandAllowed command config = false := by
  unfold isCommandAllowed
  rw [List.any_eq_false]
  intro a ha
  simp only [Bool.or_eq_true, beq_iff_eq, strStarts]
  rintro (rfl39 | hpre)
  · exact h (rfl39 ▸ ha)
  · have hp : (a ++ " ").data <+: (firstToken command).data :=
      List.isPrefixOf_iff_prefix.mp hpre
    have hsp : ' ' ∈ (firstToken command).data := by
      refine hp.subset ?_
      show ' ' ∈ a.data ++ " ".data
      exact List.mem_append_right _ (by decide)
    exact firstToken_no_space command hsp

/-- The rejected-command equation for `SandboxRunner.run`: the command is
logged with a canned exit-1 result, and nothing else in the world (in
particular no `sandbox.exec` call) happens. -/
theorem runnerRun_rejected (env : Env) (ctx : RunnerCtx) (command : String) (w : World)
    (h : isCommandAllowed command ctx.config = false) :
    runnerRun env ctx command w =
      (Except.ok
        { exitCode := 1, stdout := ""
          stderr := "Command not allowed: " ++ command ++ ". Allowed commands: " ++
            String.intercalate ", " ctx.config.allowed_commands },
       { w with cmdLog := w.cmdLog ++
          [(command,
            { exitCode := 1, stdout := ""
              stderr := "Command not allowed: " ++ command ++ ". Allowed commands: " ++
                String.intercalate ", " ctx.config.allowed_commands })] }) := by
  unfold runnerRun
  rw [h]
  rfl

/-- C3: for every command whose first whitespace-separated token is not in
the configured allow-list, `SandboxRunner.run` returns a non-zero
`ExecResult` without ever calling `sandbox.exec`, while still recording the
attempted command in the audit log (`getCommandLog`). -/
theorem C3_run_rejects_disallowed :
    ∀ (env : Env) (ctx : RunnerCtx) (command : String) (w : World),
      firstToken command ∉ ctx.config.allowed_commands →
      ∃ result : ExecResult,
        runnerRun env ctx command w =
          (Except.ok result, { w with cmdLog := w.cmdLog ++ [(command, result)] }) ∧
        result.exitCode ≠ 0 ∧
        (runnerRun env ctx command w).2.execCalls = w.execCalls ∧
        getCommandLog (runnerRun env ctx command w).2 =
          getCommandLog w ++ [(command, result)] := by
  intro env ctx command w h
  have hra := runnerRun_rejected env ctx command w
    (isCommandAllowed_false_of_not_mem command ctx.config h)
  refine ⟨_, hra, ?_, ?_, ?_⟩
  · show (1 : Int) ≠ 0
    decide
  · rw [hra]
  · rw [hra]
    rfl

/-- C3 witness: `run("rm -rf /")` with `allowed_commands = ["git","npm"]`
is rejected without invoking the sandbox and is recorded in the audit log. -/
theorem C3_witness :
    firstToken "rm -rf /" ∉
      (RunnerCtx.mk { DEFAULT_HAVOC_CONFIG with allowed_commands := ["git", "npm"] }
        "/workspace/repo").config.allowed_commands ∧
    ∃ result : ExecResult,
      runnerRun exampleEnv
          (RunnerCtx.mk { DEFAULT_HAVOC_CONFIG with allowed_commands := ["git", "npm"] }
            "/workspace/repo") "rm -rf /" World.init =
        (Except.ok result,
         { World.init with cmdLog := World.init.cmdLog ++ [("rm -rf /", result)] }) ∧
      result.exitCode ≠ 0 ∧
      (runnerRun exampleEnv
          (RunnerCtx.mk { DEFAULT_HAVOC_CONFIG with allowed_commands := ["git", "npm"] }
            "/workspace/repo") "rm -rf /" World.init).2.execCalls = World.init.execCalls ∧
      getCommandLog (runnerRun exampleEnv
          (RunnerCtx.mk { DEFAULT_HAVOC_CONFIG with allowed_commands := ["git", "npm"] }
            "/workspace/repo") "rm -rf /" World.init).2 =
        getCommandLog World.init ++ [("rm -rf /", result)] :=
  ⟨by decide,
   C3_run_rejects_disallowed exampleEnv
     (RunnerCtx.mk { DEFAULT_HAVOC_CONFIG with allowed_commands := ["git", "npm"] }
       "/workspace/repo") "rm -rf /" World.init (by decide)⟩

/-- C4: for every task whose target file is protected by the configured
patterns, `executeTask` immediately returns a skipped, unsuccessful
`TaskResult` with a non-empty error — for every task kind alike — and the
world is unchanged: no code generation, file write, delete or any other
sandbox call is attempted. -/
theorem C4_protected_file_short_circuits :
    ∀ (env : Env) (ctx : RunnerCtx) (ectx : EditorContext) (task : Task) (w : World),
      isFileProtected task.file ctx.config = true →
      executeTask env ctx ectx task w =
        (Except.ok
          { taskId := task.id, success := false, file := task.file
            action := Action.skipped
            error := some ("File is protected: " ++ task.file) }, w) ∧
      ("File is protected: " ++ task.file) ≠ "" := by
  intro env ctx ectx task w h
  constructor
  · unfold executeTask
    rw [if_pos h]
    rfl
  · simp [String.ext_iff]

/-- C4 witness: a `delete` task (and thereby the short-circuit before its
kind dispatch) targeting `.env` under the default configuration. -/
theorem C4_witness :
    isFileProtected ".env" DEFAULT_HAVOC_CONFIG = true ∧
    executeTask exampleEnv (RunnerCtx.mk DEFAULT_HAVOC_CONFIG "/workspace/repo")
        (EditorContext.mk "TypeScript" none)
        { id := 1, type := "delete", file := ".env", description := "d",
          details := "x", dependencies := [] } World.init =
      (Except.ok
        { taskId := 1, success := false, file := ".env", action := Action.skipped
          error := some ("File is protected: " ++ ".env") }, World.init) :=
  ⟨by decide,
   (C4_protected_file_short_circuits exampleEnv
     (RunnerCtx.mk DEFAULT_HAVOC_CONFIG "/workspace/repo")
     (EditorContext.mk "TypeScript" none)
     { id := 1, type := "delete", file := ".env", description := "d",
       details := "x", dependencies := [] } World.init (by decide)).1⟩

/-- Unfolding of `bind` in the embedding monad. -/
theorem M_bind_def {α β : Type} (m : M α) (f : α → M β) (w : World) :
    (m >>= f) w =
      match m w with
      | (Except.ok a, w') => f a w'
      | (Except.error e, w') => (Except.error e, w') := rfl

/-- The first whitespace-separated token of `rm -f <file>` is `rm`. -/
theorem firstToken_rm (s : String) : firstToken ("rm -f " ++ s) = "rm" := by
  unfold firstToken
  have hdata : ("rm -f " ++ s).data =
      'r' :: 'm' :: ' ' :: ('-' :: 'f' :: ' ' :: s.data) := by
    show ("rm -f ".data ++ s.data) = _
    rfl
  rw [hdata]
  rfl

/-- C10: under every configuration whose allow-list does not contain `rm`,
a `delete` task on an unprotected file is executed through
`deleteFile` → `run("rm -f <file>")`, which the allow-list rejects: the
result is an unsuccessful skipped `TaskResult` whose error message names
the disallowed command, the rejected command is logged, and no
`sandbox.exec` call happens — the target file is never removed. -/
theorem C10_delete_task_blocked :
    ∀ (env : Env) (ctx : RunnerCtx) (ectx : EditorContext) (task : Task) (w : World),
      "rm" ∉ ctx.config.allowed_commands →
      isFileProtected task.file ctx.config = false →
      task.type = "delete" →
      executeTask env ctx ectx task w =
        (Except.ok
          { taskId := task.id, success := false, file := task.file
            action := Action.skipped
            error := some ("Command not allowed: " ++ ("rm -f " ++ task.file) ++
              ". Allowed commands: " ++
              String.intercalate ", " ctx.config.allowed_commands) },
         { w with cmdLog := w.cmdLog ++
            [("rm -f " ++ task.file,
              { exitCode := 1, stdout := ""
                stderr := "Command not allowed: " ++ ("rm -f " ++ task.file) ++
                  ". Allowed commands: " ++
                  String.intercalate ", " ctx.config.allowed_commands })] }) ∧
      ({ w with cmdLog := w.cmdLog ++
          [("rm -f " ++ task.file,
            { exitCode := 1, stdout := ""
              stderr := "Command not allowed: " ++ ("rm -f " ++ task.file) ++
                ". Allowed commands: " ++
                String.intercalate ", " ctx.config.allowed_commands })] } : World).execCalls
        = w.execCalls := by
  intro env ctx ectx task w hrm hprot htype
  refine ⟨?_, rfl⟩
  have hnotmem : firstToken ("rm -f " ++ task.file) ∉ ctx.config.allowed_commands := by
    rw [firstToken_rm]
    exact hrm
  have hreject := isCommandAllowed_false_of_not_mem _ ctx.config hnotmem
  unfold executeTask
  rw [if_neg (by simp [hprot]), if_neg (by simp [htype]), if_neg (by simp [htype]),
    if_pos htype]
  show deleteFile env ctx task w = _
  have hrr := runnerRun_rejected env ctx ("rm -f " ++ task.file) w hreject
  unfold deleteFile
  rw [M_bind_def, hrr]
  rfl

/-- A concrete delete task on an unprotected file. -/
def delExampleTask : Task :=
  { id := 7, type := "delete", file := "src/old.ts", description := "remove",
    details := "remove the file", dependencies := [] }

/-- C10 witness: under both the default configuration and the pipeline's
inline fallback configuration, neither of which allows `rm`, the delete
task is blocked with the command named in the error and no sandbox call. -/
theorem C10_witness :
    ("rm" ∉ DEFAULT_HAVOC_CONFIG.allowed_commands ∧
     isFileProtected delExampleTask.file DEFAULT_HAVOC_CONFIG = false ∧
     delExampleTask.type = "delete" ∧
     "rm" ∉ inlineFallbackConfig.allowed_commands ∧
     isFileProtected delExampleTask.file inlineFallbackConfig = false) ∧
    executeTask exampleEnv (RunnerCtx.mk DEFAULT_HAVOC_CONFIG "/workspace/repo")
        (EditorContext.mk "TypeScript" none) delExampleTask World.init =
      (Except.ok
        { taskId := delExampleTask.id, success := false, file := delExampleTask.file
          action := Action.skipped
          error := some ("Command not allowed: " ++ ("rm -f " ++ delExampleTask.file) ++
            ". Allowed commands: " ++
            String.intercalate ", " DEFAULT_HAVOC_CONFIG.allowed_commands) },
       { World.init with cmdLog := World.init.cmdLog ++
          [("rm -f " ++ delExampleTask.file,
            { exitCode := 1, stdout := ""
              stderr := "Command not allowed: " ++ ("rm -f " ++ delExampleTask.file) ++
                ". Allowed commands: " ++
                String.intercalate ", " DEFAULT_HAVOC_CONFIG.allowed_commands })] }) ∧
    executeTask exampleEnv (RunnerCtx.mk inlineFallbackConfig "/workspace/repo")
        (EditorContext.mk "TypeScript" none) delExampleTask World.init =
      (Except.ok
        { taskId := delExampleTask.id, success := false, file := delExampleTask.file
          action := Action.skipped
          error := some ("Command not allowed: " ++ ("rm -f " ++ delExampleTask.file) ++
            ". Allowed commands: " ++
            String.intercalate ", " inlineFallbackConfig.allowed_commands) },
       { World.init with cmdLog := World.init.cmdLog ++
          [("rm -f " ++ delExampleTask.file,
            { exitCode := 1, stdout := ""
              stderr := "Command not allowed: " ++ ("rm -f " ++ delExampleTask.file) ++
                ". Allowed commands: " ++
                String.intercalate ", " inlineFallbackConfig.allowed_commands })] }) :=
  ⟨⟨by decide, by decide, rfl, by decide, by decide⟩,
   (C10_delete_task_blocked exampleEnv
     (RunnerCtx.mk DEFAULT_HAVOC_CONFIG "/workspace/repo")
     (EditorContext.mk "TypeScript" none) delExampleTask World.init
     (by decide) (by decide) rfl).1,
   (C10_delete_task_blocked exampleEnv
     (RunnerCtx.mk inlineFallbackConfig "/workspace/repo")
     (EditorContext.mk "TypeScript" none) delExampleTask World.init
     (by decide) (by decide) rfl).1⟩

/-! ## Witnesses for the policy, planner and validator theorems -/

/-- Test results where tests never ran. -/
def c2Tests : TestResults :=
  { ran := false, passed := false, total := 0, passed_count := 0, failed_count := 0,
    skipped_count := 0, pass_rate := 0, duration_ms := 0, output := "" }

/-- Failing lint results. -/
def c2Lint : LintResults :=
  { ran := true, passed := false, errors := 2, warnings := 1, output := "e" }

/-- A review that requests changes but has no critical issues. -/
def c2Review : ReviewResult :=
  { summary := "s", issues := [], suggestions := [], risks := [],
    overallAssessment := Assessment.request_changes, confidence := 40 }

/-- C2 witness: at confidence 60 versus the default threshold 70 the run is
blocked with the confidence gate's message; at confidence 80 a run failing
only the three optional gates passes, with their messages as warnings; and
with tests never run the required test gate auto-passes. -/
theorem C2_witness :
    ((checkPolicyGates DEFAULT_HAVOC_CONFIG 60 exampleTestResults exampleLintResults
        exampleReview).passed = false ∧
      (checkConfidenceGate DEFAULT_HAVOC_CONFIG 60).message ∈
        (checkPolicyGates DEFAULT_HAVOC_CONFIG 60 exampleTestResults exampleLintResults
          exampleReview).blockers) ∧
    ((checkPolicyGates DEFAULT_HAVOC_CONFIG 80 c2Tests c2Lint c2Review).passed = true ∧
      (checkTestsRanGate c2Tests).message ∈
        (checkPolicyGates DEFAULT_HAVOC_CONFIG 80 c2Tests c2Lint c2Review).warnings ∧
      (checkLintGate c2Lint).message ∈
        (checkPolicyGates DEFAULT_HAVOC_CONFIG 80 c2Tests c2Lint c2Review).warnings ∧
      (checkAssessmentGate c2Review).message ∈
        (checkPolicyGates DEFAULT_HAVOC_CONFIG 80 c2Tests c2Lint c2Review).warnings) ∧
    (checkTestGate DEFAULT_HAVOC_CONFIG c2Tests ∈
        (checkPolicyGates DEFAULT_HAVOC_CONFIG 80 c2Tests c2Lint c2Review).gates ∧
      (checkTestGate DEFAULT_HAVOC_CONFIG c2Tests).required = true ∧
      (checkTestGate DEFAULT_HAVOC_CONFIG c2Tests).passed = true) := by
  have h60 := (C2_checkPolicyGates_aggregation DEFAULT_HAVOC_CONFIG 60 exampleTestResults
    exampleLintResults exampleReview).2.1 (by norm_num [DEFAULT_HAVOC_CONFIG])
  have h80 := (C2_checkPolicyGates_aggregation DEFAULT_HAVOC_CONFIG 80 c2Tests c2Lint
    c2Review).2.2.1 (by norm_num [DEFAULT_HAVOC_CONFIG]) (Or.inl rfl)
    (by intro i hi; simp [c2Review] at hi)
  have hran := (C2_checkPolicyGates_aggregation DEFAULT_HAVOC_CONFIG 80 c2Tests c2Lint
    c2Review).2.2.2 rfl
  exact ⟨h60, ⟨h80.1, h80.2.1 rfl, h80.2.2.1 rfl, h80.2.2.2 rfl⟩, hran⟩

/-- A validated two-task chain for the C5 witness. -/
def c5Tasks : List Task :=
  [{ id := 1, type := "create", file := "a.ts", description := "a", details := "a",
     dependencies := [] },
   { id := 2, type := "modify", file := "b.ts", description := "b", details := "b",
     dependencies := [1] }]

/-- C5 witness: on a concrete validated two-task chain with distinct ids,
`sortTasks` permutes the input and respects the dependency order. -/
theorem C5_witness :
    (sortTasks c5Tasks).Perm c5Tasks ∧
    (∀ (j : Nat) (hj : j < (sortTasks c5Tasks).length),
      ∀ d ∈ ((sortTasks c5Tasks).get ⟨j, hj⟩).dependencies,
      ∃ (i : Nat) (hi : i < (sortTasks c5Tasks).length),
        i < j ∧ ((sortTasks c5Tasks).get ⟨i, hi⟩).id = d) :=
  (C5_sortTasks_topological c5Tasks).2 (by decide) (by decide)

/-- A plan with one task whose single dependency is both non-existent and
not strictly smaller than the task's own id. -/
def c6BadTask : Task :=
  { id := 2, type := "modify", file := "a.ts", description := "d", details := "x",
    dependencies := [5] }

/-- The invalid plan for the C6 witness. -/
def c6BadPlan : Plan :=
  { summary := "", approach := "", tasks := [c6BadTask], testStrategy := "", risks := [] }

/-- A fully valid plan for the C6 witness. -/
def c6GoodPlan : Plan :=
  { summary := "", approach := "", tasks := c5Tasks, testStrategy := "", risks := [] }

/-- C6 witness: both violation messages appear for the bad dependency, and
a fully valid plan yields an empty error list. -/
theorem C6_witness :
    s!"Task {c6BadTask.id} depends on non-existent task {(5 : Nat)}" ∈
      (validatePlan c6BadPlan).errors ∧
    s!"Task {c6BadTask.id} has forward dependency on task {(5 : Nat)}" ∈
      (validatePlan c6BadPlan).errors ∧
    (validatePlan c6GoodPlan).errors = [] :=
  ⟨((C6_validatePlan_reports_violations c6BadPlan).2.1 c6BadTask (by decide) 5
      (by decide)).1 (by decide),
   ((C6_validatePlan_reports_violations c6BadPlan).2.1 c6BadTask (by decide) 5
      (by decide)).2 (by decide),
   (C6_validatePlan_reports_violations c6GoodPlan).2.2 (by decide)⟩

/-! ## Intent card and markdown artifacts (`artifacts/intent-card.ts`,
`agents/reviewer.ts` and `policy.ts` formatters) -/

/-- Source string of a severity value. -/
def Severity.toName : Severity → String
  | .low => "low"
  | .medium => "medium"
  | .high => "high"
  | .critical => "critical"

/-- Source string of a task-result action. -/
def Action.toName : Action → String
  | .created => "created"
  | .modified => "modified"
  | .deleted => "deleted"
  | .skipped => "skipped"

/-- File change entry of an intent card (`FileChange`). -/
structure FileChange where
  file : String
  action : String
  rationale : String
  deriving Repr, DecidableEq

/-- Risk assessment item of an intent card (`RiskItem`). -/
structure RiskItem where
  severity : String
  description : String
  deriving Repr, DecidableEq

/-- The intent card (`IntentCard`). -/
structure IntentCard where
  runId : String
  issueNumber : Nat
  issueTitle : String
  issueSummary : String
  type : String
  scope : List String
  assumptions : List String
  approach : String
  filesChanged : List FileChange
  testsAdded : List String
  riskAssessment : List RiskItem
  confidenceScore : ℤ
  confidenceBreakdown : ConfidenceBreakdown
  selfReviewSummary : String
  generatedAt : String
  deriving Repr, DecidableEq

/-- `generateIntentCard` (the timestamp comes from the clock oracle). -/
def generateIntentCard (env : Env) (runId : String) (issueNumber : Nat)
    (issueTitle : String) (analysis : AnalysisResult) (plan : Plan)
    (taskResults : List TaskResult) (_testResults : TestResults)
    (_lintResults : LintResults) (review : ReviewResult)
    (confidenceScore : ℤ) (breakdown : ConfidenceBreakdown) : IntentCard :=
  { runId := runId
    issueNumber := issueNumber
    issueTitle := issueTitle
    issueSummary := analysis.spec.summary
    type := analysis.spec.type
    scope := analysis.spec.affectedAreas
    assumptions := analysis.spec.assumptions
    approach := plan.approach
    filesChanged := (taskResults.filter (·.success)).map fun r =>
      { file := r.file
        action := r.action.toName
        rationale :=
          match plan.tasks.find? (fun t => t.file == r.file) with
          | some t => if t.description.isEmpty then "N/A" else t.description
          | none => "N/A" }
    testsAdded := ((taskResults.filter fun r =>
        r.success && (r.action == Action.created) && strIncludes r.file "test").map (·.file))
    riskAssessment :=
      (plan.risks.map fun r => { severity := "medium", description := r }) ++
      (review.risks.map fun r => { severity := r.severity.toName, description := r.message })
    confidenceScore := confidenceScore
    confidenceBreakdown := breakdown
    selfReviewSummary := review.summary
    generatedAt := env.nowIso }

/-- `safeUpper` helper of `formatIntentCard`. -/
def safeUpper (value fallback : String) : String :=
  if value.length > 0 then strToUpper value else fallback

/-- `formatIntentCard`: the markdown rendering of an intent card.  (The
`Array.isArray` guards of the source are vacuous in this typed embedding.) -/
def formatIntentCard (card : IntentCard) : String :=
  let confidenceEmoji :=
    if card.confidenceScore ≥ 80 then "🟢" else if card.confidenceScore ≥ 60 then "🟡" else "🔴"
  "# 📋 Intent Card\n\n> **Every AI-generated PR deserves an explanation.**\n\n" ++
  "## Issue Summary\n**#" ++ toString card.issueNumber ++ ":** " ++ card.issueTitle ++
  "\n\n" ++ card.issueSummary ++ "\n\n## Change Type\n`" ++ safeUpper card.type "UNKNOWN" ++
  "`\n\n## Scope and Assumptions\n\n### Affected Areas\n" ++
  (if card.scope.length > 0 then
    String.intercalate "\n" (card.scope.map fun s => "- " ++ s)
   else "_No areas listed_") ++
  "\n\n### Assumptions\n" ++
  (if card.assumptions.length > 0 then
    String.intercalate "\n" (card.assumptions.map fun a => "- " ++ a)
   else "_No assumptions listed_") ++
  "\n\n## Planned Approach\n" ++ card.approach ++
  "\n\n## Files Changed\n\n| File | Action | Rationale |\n|------|--------|-----------|\n" ++
  (if card.filesChanged.length > 0 then
    String.intercalate "\n" (card.filesChanged.map fun f =>
      "| `" ++ f.file ++ "` | " ++ f.action ++ " | " ++ f.rationale ++ " |")
   else "| _No files_ | _n/a_ | _n/a_ |") ++
  "\n\n## Tests Added\n" ++
  (if card.testsAdded.length > 0 then
    String.intercalate "\n" (card.testsAdded.map fun t => "- `" ++ t ++ "`")
   else "_No new tests added_") ++
  "\n\n## Risk Assessment\n\n" ++
  (if card.riskAssessment.length > 0 then
    String.intercalate "\n" (card.riskAssessment.map fun r =>
      (if r.severity == "critical" then "🔴" else if r.severity == "high" then "🟠"
       else if r.severity == "medium" then "🟡" else "🟢") ++
      " **[" ++ safeUpper r.severity "LOW" ++ "]** " ++ r.description)
   else "✅ No significant risks identified") ++
  "\n\n## Confidence Score\n\n" ++ confidenceEmoji ++ " **" ++
  toString card.confidenceScore ++ "%**\n\n| Signal | Score |\n|--------|-------|\n" ++
  "| Tests Passing | " ++ toString card.confidenceBreakdown.testsPassing ++ "% |\n" ++
  "| Lint Clean | " ++ toString card.confidenceBreakdown.lintClean ++ "% |\n" ++
  "| Change Complexity | " ++ toString card.confidenceBreakdown.changeComplexity ++ "% |\n" ++
  "| Dependency Risk | " ++ toString card.confidenceBreakdown.dependencyRisk ++ "% |\n" ++
  "| Behavior Risk | " ++ toString card.confidenceBreakdown.behaviorRisk ++ "% |\n" ++
  "| Self-Review | " ++ toString card.confidenceBreakdown.selfReview ++ "% |\n\n" ++
  "## Self-Review Summary\n" ++ card.selfReviewSummary ++
  "\n\n---\n\n<sub>Generated by [Havoc](https://usehavoc.dev) | Run ID: `" ++
  card.runId ++ "` | " ++ card.generatedAt ++ "</sub>\n"

/-- Leading-tag stripping of `generatePRTitle`
(`.replace(/^\[.*?\]\s*/, '')`). -/
def stripLeadingTag (s : String) : String :=
  match s.data with
  | '[' :: rest =>
    (match rest.dropWhile (· ≠ ']') with
     | ']' :: tail => String.mk (tail.dropWhile Char.isWhitespace)
     | _ => s)
  | _ => s

/-- Leading-keyword stripping of `generatePRTitle`
(`.replace(/^(fix|feat|add|update|remove|refactor):\s*/i, '')`, applied to
an already-lowercased string). -/
def stripLeadingKeyword (s : String) : String :=
  match ["fix", "feat", "add", "update", "remove", "refactor"].find?
      (fun p => strStarts s (p ++ ":")) with
  | some p => String.mk ((s.data.drop (p.length + 1)).dropWhile Char.isWhitespace)
  | none => s

/-- `generatePRTitle`. -/
def generatePRTitle (card : IntentCard) : String :=
  let pfx :=
    if card.type = "bug" then "fix"
    else if card.type = "feature" then "feat"
    else if card.type = "refactor" then "refactor"
    else if card.type = "docs" then "docs"
    else if card.type = "other" then "chore"
    else "chore"
  let cleanTitle :=
    strTrim (stripLeadingKeyword (stripLeadingTag (strToLower card.issueTitle)))
  pfx ++ ": " ++ cleanTitle ++ " (#" ++ toString card.issueNumber ++ ")"

/-- `generatePRBody` (its `diff` parameter is unused in the source too). -/
def generatePRBody (card : IntentCard) (_diff : String) : String :=
  "## Summary\n\nThis PR addresses issue #" ++ toString card.issueNumber ++ ": **" ++
  card.issueTitle ++ "**\n\n" ++ card.issueSummary ++ "\n\n## Changes\n\n" ++
  String.intercalate "\n" (card.filesChanged.map fun f =>
    "- **" ++ f.action ++ "** `" ++ f.file ++ "`: " ++ f.rationale) ++
  "\n\n## Test Results\n\n" ++
  (if card.testsAdded.length > 0 then
    "### New Tests\n" ++ String.intercalate "\n" (card.testsAdded.map fun t => "- `" ++ t ++ "`")
   else "_No new tests_") ++
  "\n\n## Confidence Score: " ++ toString card.confidenceScore ++
  "%\n\n<details>\n<summary>📋 View Full Intent Card</summary>\n\n" ++
  formatIntentCard card ++
  "\n\n</details>\n\n---\n\n🤖 _This PR was automatically generated by [Havoc](https://usehavoc.dev)_\n"

/-- Severity emoji of the review formatter. -/
def severityEmoji : Severity → String
  | .low => "🟢"
  | .medium => "🟡"
  | .high => "🟠"
  | .critical => "🔴"

/-- `formatReviewResult` from `agents/reviewer.ts`. -/
def formatReviewResult (review : ReviewResult) : String :=
  let assessmentEmoji :=
    match review.overallAssessment with
    | .approve => "✅"
    | .request_changes => "⚠️"
    | .needs_discussion => "💬"
  let base := "## Self-Review\n\n### Summary\n" ++ review.summary ++
    "\n\n### Overall Assessment\n" ++ assessmentEmoji ++ " **" ++
    strToUpper (review.overallAssessment.toName.replace "_" " ") ++
    "**\n\n### Confidence Score\n**" ++ toString review.confidence ++ "%**\n\n"
  let issuesPart :=
    if review.issues.length > 0 then
      "### Issues Found\n" ++ String.join (review.issues.map fun issue =>
        severityEmoji issue.severity ++ " **[" ++ strToUpper issue.severity.toName ++ "]**" ++
        (match issue.file with | some f => " `" ++ f ++ "`" | none => "") ++
        (match issue.line with
         | some n => if n = 0 then "" else ":" ++ toString n
         | none => "") ++
        "\n   " ++ issue.message ++ "\n\n")
    else ""
  let suggestionsPart :=
    if review.suggestions.length > 0 then
      "### Suggestions\n" ++ String.join (review.suggestions.map fun s =>
        severityEmoji s.severity ++ " " ++
        (match s.file with | some f => "`" ++ f ++ "`: " | none => "") ++
        s.message ++ "\n\n")
    else ""
  let risksPart :=
    if review.risks.length > 0 then
      "### Potential Risks\n" ++ String.join (review.risks.map fun r =>
        severityEmoji r.severity ++ " **[" ++ strToUpper r.severity.toName ++ "]** " ++
        r.message ++ "\n\n")
    else ""
  let emptyPart :=
    if review.issues.length = 0 ∧ review.suggestions.length = 0 ∧ review.risks.length = 0 then
      "\n✨ No issues, suggestions, or risks identified. Code looks good!\n"
    else ""
  base ++ issuesPart ++ suggestionsPart ++ risksPart ++ emptyPart

/-- Rendering of a `string | number` gate value. -/
def JsVal.render : JsVal → String
  | .str s => s
  | .num q => toString q

/-- `formatPolicyResult` from `policy.ts`. -/
def formatPolicyResult (result : PolicyResult) : String :=
  let overallIcon := if result.passed then "✅" else "❌"
  let base := "## Policy Gates\n\n" ++ overallIcon ++ " **" ++
    (if result.passed then "ALL GATES PASSED" else "GATES FAILED") ++
    "**\n\n### Gate Results\n\n| Gate | Status | Actual | Threshold |\n" ++
    "|------|--------|--------|-----------|\n" ++
    String.intercalate "\n" (result.gates.map fun g =>
      "| " ++ g.name ++ " | " ++
      (if g.passed then "✅" else if g.required then "❌" else "⚠️") ++
      " | " ++ g.actual.render ++ " | " ++ g.threshold.render ++ " |") ++
    "\n\n"
  let blockersPart :=
    if result.blockers.length > 0 then
      "### Blockers\n" ++
        String.intercalate "\n" (result.blockers.map fun b => "- ❌ " ++ b) ++ "\n\n"
    else ""
  let warningsPart :=
    if result.warnings.length > 0 then
      "### Warnings\n" ++
        String.intercalate "\n" (result.warnings.map fun w => "- ⚠️ " ++ w) ++ "\n\n"
    else ""
  base ++ blockersPart ++ warningsPart

/-- `generateBranchName` from `db/schema.ts`:
`havoc/issue-<N>-<first 8 chars of the run id>`. -/
def generateBranchName (issueNumber : Nat) (runId : String) : String :=
  "havoc/issue-" ++ toString issueNumber ++ "-" ++ String.mk (runId.data.take 8)

/-! ## Pipeline orchestrator (`pipeline.ts`, container-clone version)

The embedding mirrors the source statement by statement: every persistence
call, sandbox invocation, event emission, LLM stage and GitHub call appears
in order, and the `try`/`catch`/`finally` of the source becomes
`mtryCatch`/`mfinally`.  `input.runId` is taken as given (the source
generates a fresh `nanoid` when the caller supplies none). -/

/-- Pipeline input (`PipelineInput`). -/
structure PipelineInput where
  runId : String
  owner : String
  repo : String
  issueNumber : Nat
  issueTitle : String
  issueBody : String
  installationId : Option Nat
  userId : Option String
  deriving Repr, DecidableEq

/-- Pipeline result (`PipelineResult`). -/
structure PipelineResult where
  runId : String
  success : Bool
  prUrl : Option String := none
  prNumber : Option Nat := none
  confidenceScore : ℤ
  policyPassed : Bool
  error : Option String := none
  deriving Repr, DecidableEq

/-- The `try` body of `runPipeline`. -/
def pipelineBody (env : Env) (input : PipelineInput) : M PipelineResult := do
  let runId := input.runId
  dbCreateRun env (input.owner ++ "/" ++ input.repo)
  emitEvent "Run initialized"
  dbUpdateRunStatus env RunStatus.cloning none
  emitEvent "Creating sandbox"
  sandboxCreate env
  emitEvent "Sandbox created"
  emitEvent ("Cloning " ++ input.owner ++ "/" ++ input.repo)
  let authToken ←
    match input.installationId with
    | some _ => ghGetInstallationToken env
    | none => pure env.githubToken
  if authToken = "" then
    mthrow "No authentication token available"
  let cloneUrl := "https://x-access-token:" ++ authToken ++ "@github.com/" ++
    input.owner ++ "/" ++ input.repo ++ ".git"
  let _ ← sandboxExec env ["git", "clone", "--depth", "1", cloneUrl, "/workspace/repo"]
  let _ ← sandboxExec env
    ["sh", "-c", "cd /workspace/repo && git config user.email \"havoc@usehavoc.dev\""]
  let _ ← sandboxExec env
    ["sh", "-c", "cd /workspace/repo && git config user.name \"Havoc\""]
  emitEvent "Repository cloned"
  let havocConfigResult ← sandboxExec env ["cat", "/workspace/repo/.havoc.yaml"]
  let havocConfig :=
    if havocConfigResult.exitCode == 0 then env.loadedConfig else inlineFallbackConfig
  let packageJsonResult ← sandboxExec env ["cat", "/workspace/repo/package.json"]
  let havocConfig :=
    if packageJsonResult.exitCode == 0 then
      if env.pkgHasTestScript packageJsonResult.stdout then
        { havocConfig with test_command := "npm test" }
      else havocConfig
    else havocConfig
  let runner : RunnerCtx := { config := havocConfig, workingDir := "/workspace/repo" }
  let defaultBranch ← ghGetDefaultBranch env
  let branchName := generateBranchName input.issueNumber runId
  let _ ← sandboxExec env
    ["sh", "-c", "cd /workspace/repo && git checkout -b " ++ branchName]
  emitEvent ("Created branch " ++ branchName)
  -- === ANALYZE ===
  dbUpdateRunStatus env RunStatus.analyzing none
  emitEvent "Analyzing issue"
  let analysis ← stageAnalyzeIssue env
  emitEvent ("Issue type: " ++ analysis.spec.type)
  -- === PLAN ===
  dbUpdateRunStatus env RunStatus.planning none
  emitEvent "Creating plan"
  let plan ← stageCreatePlan env
  dbUpdateRunPlan env plan
  emitEvent ("Plan created with " ++ toString plan.tasks.length ++ " tasks")
  -- === EDIT ===
  dbUpdateRunStatus env RunStatus.editing none
  emitEvent "Executing tasks"
  let sortedTasks := sortTasks plan.tasks
  let taskResults ← executeTasks env runner
    { language := analysis.context.language, framework := analysis.context.framework }
    sortedTasks
  let successfulTasks := (taskResults.filter (·.success)).length
  emitEvent ("Completed " ++ toString successfulTasks ++ "/" ++
    toString taskResults.length ++ " tasks")
  let _unstagedDiff ← runnerGetGitDiff env
  let _ ← runnerStageAll env
  emitEvent "Staged changes"
  let stagedDiff ← runnerGetStagedDiff env
  if (strTrim stagedDiff).isEmpty then do
    let tasksWithDiffs := taskResults.filter fun t =>
      match t.diff with
      | some s => !s.isEmpty
      | none => false
    if tasksWithDiffs.length > 0 then do
      let syncMessage :=
        "Code changes were generated but not properly staged. This may be a sandbox sync issue."
      dbUpdateRunStatus env RunStatus.failed (some syncMessage)
      emitEvent syncMessage
      ghAddIssueComment env ("## Havoc Run Failed\n\n❌ " ++ syncMessage ++
        "\n\nRun ID: `" ++ runId ++ "`\n\nDebug: " ++ toString tasksWithDiffs.length ++
        " tasks completed successfully but changes were not visible to git.")
    else do
      let noChangeMessage := "No code changes were generated. PR not created."
      dbUpdateRunStatus env RunStatus.failed (some noChangeMessage)
      emitEvent noChangeMessage
      ghAddIssueComment env ("## Havoc Run Failed\n\n❌ " ++ noChangeMessage ++
        "\n\nRun ID: `" ++ runId ++ "`")
    pure { runId := runId, success := false, confidenceScore := 0, policyPassed := false
           error := some (if !(strTrim stagedDiff).isEmpty then "Sync issue"
             else "No changes generated") }
  else do
    -- === TEST ===
    dbUpdateRunStatus env RunStatus.testing none
    emitEvent "Running tests"
    let testResults ← stageRunTests env
    emitEvent ("Tests " ++ (if testResults.passed then "PASSED" else "FAILED") ++
      " (" ++ toFixed1 testResults.pass_rate ++ "%)")
    let lintResults ← stageRunLint env
    emitEvent ("Lint " ++ (if lintResults.passed then "PASSED" else "FAILED"))
    -- === REVIEW ===
    dbUpdateRunStatus env RunStatus.reviewing none
    emitEvent "Self-reviewing changes"
    let review ← stageSelfReview env
    emitEvent ("Review assessment: " ++ review.overallAssessment.toName)
    -- === CONFIDENCE ===
    let conf := calculateConfidenceScore taskResults testResults lintResults review plan
    emitEvent ("Confidence score: " ++ toString conf.score ++ "%")
    -- === POLICY GATES ===
    let policyResult :=
      checkPolicyGates havocConfig conf.score testResults lintResults review
    emitEvent ("Policy gates " ++ (if policyResult.passed then "PASSED" else "FAILED"))
    -- === GENERATE ARTIFACTS ===
    let intentCard := generateIntentCard env runId input.issueNumber input.issueTitle
      analysis plan taskResults testResults lintResults review conf.score conf.breakdown
    emitEvent "Generated Intent Card"
    dbUpdateRunArtifacts env
    -- === PUBLISH ===
    dbUpdateRunStatus env RunStatus.publishing none
    emitEvent "Publishing"
    if policyResult.passed then do
      let commitMessage := generatePRTitle intentCard
      let _ ← runnerCommit env runner commitMessage
      let pushResult ← sandboxExec env
        ["sh", "-c", "cd /workspace/repo && git push https://x-access-token:" ++
          authToken ++ "@github.com/" ++ input.owner ++ "/" ++ input.repo ++ ".git " ++
          branchName]
      if pushResult.exitCode != 0 then
        mthrow ("Failed to push: " ++ pushResult.stderr)
      emitEvent ("Pushed changes to " ++ branchName)
      let prTitle := generatePRTitle intentCard
      let prBody := generatePRBody intentCard (combineDiffs taskResults)
      let pr ← ghCreatePullRequest env prTitle prBody branchName defaultBranch
      emitEvent ("Created PR #" ++ toString pr.number)
      ghAddPRComment env (formatReviewResult review)
      ghAddPRComment env (formatPolicyResult policyResult)
      dbUpdateRunPR env pr.url pr.number branchName
      dbUpdateRunStatus env RunStatus.done none
      emitEvent "Run completed"
      pure { runId := runId, success := true, prUrl := some pr.url
             prNumber := some pr.number, confidenceScore := conf.score
             policyPassed := true }
    else do
      let failureMessage := "## Havoc Run Failed Policy Gates\n\n" ++
        formatPolicyResult policyResult ++ "\n\n### Summary\n" ++
        getPolicySummary policyResult ++
        "\n\n<details>\n<summary>📋 View Intent Card</summary>\n\n" ++
        formatIntentCard intentCard ++ "\n\n</details>\n\n---\nRun ID: `" ++ runId ++ "`\n"
      ghAddIssueComment env failureMessage
      dbUpdateRunStatus env RunStatus.failed (some "Policy gates not passed")
      emitEvent "Policy gates failed"
      pure { runId := runId, success := false, confidenceScore := conf.score
             policyPassed := false, error := some (getPolicySummary policyResult) }

/-- The `catch` handler of `runPipeline`: record the failure status, emit
the error, post a best-effort issue comment whose own failure is swallowed,
and return the structured failure result. -/
def pipelineCatch (env : Env) (input : PipelineInput) (errorMessage : String) :
    M PipelineResult := do
  dbUpdateRunStatus env RunStatus.failed (some errorMessage)
  emitEvent errorMessage
  mtryCatch
    (ghAddIssueComment env ("## Havoc Run Failed\n\n❌ Error: " ++ errorMessage ++
      "\n\nRun ID: `" ++ input.runId ++ "`"))
    (fun _ => pure ())
  pure { runId := input.runId, success := false, confidenceScore := 0
         policyPassed := false, error := some errorMessage }

/-- The `finally` block of `runPipeline`: cleans up the sandbox when (and
only when) the local `sandbox` variable was assigned. -/
def pipelineFinally : M Unit := fun w =>
  if w.sandboxCreated then sandboxCleanup w else (Except.ok (), w)

/-- The `try`/`catch`/`finally` composition of `runPipeline`. -/
def runPipelineCore (env : Env) (input : PipelineInput) : M PipelineResult :=
  mfinally (mtryCatch (pipelineBody env input) (pipelineCatch env input)) pipelineFinally

/-- `runPipeline` (container-clone version): the start event precedes the
guarded body. -/
def runPipeline (env : Env) (input : PipelineInput) : M PipelineResult := do
  emitEvent ("Run started for " ++ input.owner ++ "/" ++ input.repo ++ "#" ++
    toString input.issueNumber)
  runPipelineCore env input

/-! ## Theorems about the orchestrator (C7, C8) -/

/-- Unfolding of `pure` in the embedding monad. -/
theorem M_pure_def {α : Type} (a : α) (w : World) :
    (pure a : M α) w = (Except.ok a, w) := rfl

/-- The world after the `finally` block: cleanup happens exactly when the
sandbox was created. -/
def finallyWorld (w : World) : World :=
  if w.sandboxCreated then { w with cleanups := w.cleanups + 1 } else w

/-- The `finally` block never throws (cleanup swallows its own errors) and
only bumps the cleanup counter. -/
theorem pipelineFinally_eval (w : World) :
    pipelineFinally w = (Except.ok (), finallyWorld w) := by
  unfold pipelineFinally finallyWorld sandboxCleanup
  split <;> rfl

/-- `finallyWorld` does not touch the persisted statuses. -/
theorem finallyWorld_statusUpdates (w : World) :
    (finallyWorld w).statusUpdates = w.statusUpdates := by
  unfold finallyWorld
  split <;> rfl

/-- `finallyWorld` does not touch the issue comments. -/
theorem finallyWorld_issueComments (w : World) :
    (finallyWorld w).issueComments = w.issueComments := by
  unfold finallyWorld
  split <;> rfl

/-- Evaluation of the catch handler when the failure-status persistence
call succeeds: it records the `failed` status with the exception message,
emits the error, attempts the issue comment — whose own success or failure
does not affect the outcome — and returns the structured failure result. -/
theorem pipelineCatch_eval (env : Env) (input : PipelineInput) (e : String) (w : World)
    (H : ∀ st er, env.updateRunStatusRes st er = Except.ok ()) :
    pipelineCatch env input e w =
      (Except.ok
        { runId := input.runId, success := false, prUrl := none, prNumber := none
          confidenceScore := 0, policyPassed := false, error := some e },
       { w with
          statusUpdates := w.statusUpdates ++ [(RunStatus.failed, some e)]
          events := w.events ++ [e]
          issueComments := w.issueComments ++
            ["## Havoc Run Failed\n\n❌ Error: " ++ e ++ "\n\nRun ID: `" ++
              input.runId ++ "`"] }) := by
  have h1 := H RunStatus.failed (some e)
  unfold pipelineCatch
  simp only [M_bind_def, M_pure_def, dbUpdateRunStatus, emitEvent, ghAddIssueComment,
    mtryCatch, h1]
  cases haic : env.addIssueCommentRes ("## Havoc Run Failed\n\n❌ Error: " ++ e ++
      "\n\nRun ID: `" ++ input.runId ++ "`") with
  | ok u => rfl
  | error er => rfl

/-- C7 counterexample environment: the persistence collaborator's
`updateRunStatus` always throws (for example, the database is down). -/
def c7BadEnv : Env :=
  { exampleEnv with updateRunStatusRes := fun _ _ => Except.error "db down" }

/-- A concrete pipeline input. -/
def c7Input : PipelineInput :=
  { runId := "r1", owner := "o", repo := "p", issueNumber := 3, issueTitle := "t",
    issueBody := "b", installationId := none, userId := none }

/-- C7 counterexample: when `updateRunStatus` throws, the exception from
the catch handler's own `updateRunStatus(runId, 'failed', …)` call escapes
`runPipeline` — the caller receives a raw exception, not a structured
result. -/
theorem C7_cex_persistence_throw :
    (runPipeline c7BadEnv c7Input World.init).1 = Except.error "db down" := rfl

/-- C7 (amended): provided the persistence call `updateRunStatus` does not
throw, `runPipeline` never propagates an exception: it always returns a
structured `PipelineResult` (which carries `success`, `confidenceScore`,
`policyPassed` and an optional error); and whenever the `try` body throws
with message `e`, the composed `try`/`catch`/`finally`
(`runPipelineCore`) returns the structured failure result carrying `e`,
after recording status `failed` with `e` and attempting a best-effort
issue comment whose own failure is swallowed (the conclusion holds for
every outcome of `addIssueComment`). -/
theorem C7_no_exception_leak :
    ∀ (env : Env) (input : PipelineInput) (w : World),
      (∀ st er, env.updateRunStatusRes st er = Except.ok ()) →
      ((runPipeline env input w).1.isOk = true) ∧
      (∀ e wb, pipelineBody env input w = (Except.error e, wb) →
        ∃ wf, runPipelineCore env input w =
          (Except.ok
            { runId := input.runId, success := false, prUrl := none, prNumber := none
              confidenceScore := 0, policyPassed := false, error := some e }, wf) ∧
          wf.statusUpdates = wb.statusUpdates ++ [(RunStatus.failed, some e)] ∧
          wf.issueComments = wb.issueComments ++
            ["## Havoc Run Failed\n\n❌ Error: " ++ e ++ "\n\nRun ID: `" ++
              input.runId ++ "`"]) := by
  intro env input w H
  constructor
  · show (runPipelineCore env input
      { w with events := w.events ++ [_] }).1.isOk = true
    generalize { w with events := w.events ++ [_] } = w0
    unfold runPipelineCore mfinally mtryCatch
    cases hb : pipelineBody env input w0 with
    | mk r wb =>
      cases r with
      | ok a =>
        dsimp only
        rw [pipelineFinally_eval]
        rfl
      | error e =>
        dsimp only
        rw [pipelineCatch_eval env input e wb H]
        dsimp only
        rw [pipelineFinally_eval]
        rfl
  · intro e wb hbody
    refine ⟨finallyWorld
      { wb with
          statusUpdates := wb.statusUpdates ++ [(RunStatus.failed, some e)]
          events := wb.events ++ [e]
          issueComments := wb.issueComments ++
            ["## Havoc Run Failed\n\n❌ Error: " ++ e ++ "\n\nRun ID: `" ++
              input.runId ++ "`"] }, ?_, ?_, ?_⟩
    · unfold runPipelineCore mfinally mtryCatch
      rw [hbody]
      dsimp only
      rw [pipelineCatch_eval env input e wb H]
      dsimp only
      rw [pipelineFinally_eval]
    · rw [finallyWorld_statusUpdates]
    · rw [finallyWorld_issueComments]


/-- C7 witness: in a concrete environment whose `updateRunStatus` always
succeeds, `runPipeline` returns a structured result, and any body
exception is converted by the catch handler. -/
theorem C7_witness :
    ((runPipeline exampleEnv c7Input World.init).1.isOk = true) ∧
    (∀ e wb, pipelineBody exampleEnv c7Input World.init = (Except.error e, wb) →
      ∃ wf, runPipelineCore exampleEnv c7Input World.init =
        (Except.ok
          { runId := c7Input.runId, success := false, prUrl := none, prNumber := none
            confidenceScore := 0, policyPassed := false, error := some e }, wf) ∧
        wf.statusUpdates = wb.statusUpdates ++ [(RunStatus.failed, some e)] ∧
        wf.issueComments = wb.issueComments ++
          ["## Havoc Run Failed\n\n❌ Error: " ++ e ++ "\n\nRun ID: `" ++
            c7Input.runId ++ "`"]) :=
  C7_no_exception_leak exampleEnv c7Input World.init (fun _ _ => rfl)

/-- The one-task plan of the C8 scenario. -/
def c8Plan : Plan :=
  { summary := "s", approach := "a"
    tasks := [{ id := 1, type := "create", file := "a.ts", description := "d",
                details := "x", dependencies := [] }]
    testStrategy := "t", risks := [] }

/-- C8 scenario environment: the planner yields one `create` task, code
generation succeeds, every sandbox command succeeds, and `git diff
--cached` reports an empty staged diff after staging. -/
def c8Env : Env := { exampleEnv with createPlanRes := Except.ok c8Plan }

/-- C8 scenario input. -/
def c8Input : PipelineInput :=
  { runId := "r8", owner := "o", repo := "p", issueNumber := 8, issueTitle := "t",
    issueBody := "b", installationId := none, userId := none }

/-! ## C8 scenario: evaluation of the full pipeline on the sync-issue run -/

def c8Task : Task := { id := 1, type := "create", description := "d", file := "a.ts",
                       details := "x", dependencies := [] }
def c8TR : TaskResult :=
  { taskId := 1, success := true, file := "a.ts", action := Action.created
    error := none, diff := some ("+++ a.ts (new file)\n+ c") }
def c8Res : PipelineResult :=
  { runId := "r8", success := false, prUrl := none, prNumber := none
    confidenceScore := 0, policyPassed := false
    error := some "No changes generated" }

theorem hsort : sortTasks c8Plan.tasks = [c8Task] := by decide

theorem E1 (w : World) :
    (executeTasks c8Env (RunnerCtx.mk DEFAULT_HAVOC_CONFIG "/workspace/repo")
      (EditorContext.mk "TypeScript" none) [c8Task] w).1 = Except.ok [c8TR] := rfl

theorem E2 (w : World) :
    (executeTasks c8Env (RunnerCtx.mk DEFAULT_HAVOC_CONFIG "/workspace/repo")
      (EditorContext.mk "TypeScript" none) [c8Task] w).2.statusUpdates =
      w.statusUpdates := rfl

theorem E3 (w : World) :
    (executeTasks c8Env (RunnerCtx.mk DEFAULT_HAVOC_CONFIG "/workspace/repo")
      (EditorContext.mk "TypeScript" none) [c8Task] w).2.sandboxCreated =
      w.sandboxCreated := rfl

theorem E0 (w : World) :
    executeTasks c8Env (RunnerCtx.mk DEFAULT_HAVOC_CONFIG "/workspace/repo")
      (EditorContext.mk "TypeScript" none) [c8Task] w =
    (Except.ok [c8TR],
     (executeTasks c8Env (RunnerCtx.mk DEFAULT_HAVOC_CONFIG "/workspace/repo")
        (EditorContext.mk "TypeScript" none) [c8Task] w).2) :=
  Prod.ext (E1 w) rfl

-- per-op closed-form equations for the c8 environment
theorem g_emit (s : String) (w : World) :
    emitEvent s w = (Except.ok (), { w with events := w.events ++ [s] }) := rfl
theorem g_createRun (r : String) (w : World) :
    dbCreateRun c8Env r w =
      (Except.ok (), { w with runsCreated := w.runsCreated ++ [r] }) := rfl
theorem g_status (st : RunStatus) (er : Option String) (w : World) :
    dbUpdateRunStatus c8Env st er w =
      (Except.ok (), { w with statusUpdates := w.statusUpdates ++ [(st, er)] }) := rfl
theorem g_sandboxCreate (w : World) :
    sandboxCreate c8Env w = (Except.ok (), { w with sandboxCreated := true }) := rfl
theorem g_exec (args : List String) (w : World) :
    sandboxExec c8Env args w =
      (Except.ok { exitCode := 0, stdout := "", stderr := "" },
       { w with execCalls := w.execCalls ++ [args] }) := rfl
theorem g_defaultBranch (w : World) :
    ghGetDefaultBranch c8Env w = (Except.ok "main", w) := rfl
theorem g_analyze (w : World) :
    stageAnalyzeIssue c8Env w =
      (Except.ok
        { spec := { type := "bug", summary := "s", requirements := [], affectedAreas := []
                    assumptions := [], outOfScope := [], acceptanceCriteria := [] }
          context := { language := "TypeScript", framework := none, testFramework := none
                       relevantFiles := [], dependencies := [] } }, w) := rfl
theorem g_plan (w : World) :
    stageCreatePlan c8Env w = (Except.ok c8Plan, w) := rfl
theorem g_updPlan (p : Plan) (w : World) :
    dbUpdateRunPlan c8Env p w =
      (Except.ok (), { w with plansSaved := w.plansSaved ++ [p] }) := rfl
theorem g_issueComment (b : String) (w : World) :
    ghAddIssueComment c8Env b w =
      (Except.ok (), { w with issueComments := w.issueComments ++ [b] }) := rfl
theorem g_gitDiff (w : World) :
    runnerGetGitDiff c8Env w =
      (Except.ok "", { w with execCalls := w.execCalls ++ [["git", "diff"]] }) := rfl
theorem g_stagedDiff (w : World) :
    runnerGetStagedDiff c8Env w =
      (Except.ok "",
       { w with execCalls := w.execCalls ++ [["git", "diff", "--cached"]] }) := rfl

theorem g_stageAll (w : World) :
    runnerStageAll c8Env w =
      (Except.ok { exitCode := 0, stdout := "", stderr := "" },
       { w with events := w.events ++ ["git add ."],
                execCalls := ((w.execCalls ++ [["git", "status", "--porcelain"]]) ++
                  [["git", "add", "."]]) ++ [["git", "diff", "--cached", "--name-only"]] }) := by
  unfold runnerStageAll
  simp only [M_bind_def, M_pure_def, g_exec, g_emit]

theorem hTrim : (strTrim "").isEmpty = true := rfl
theorem hDiffNE : ("+++ a.ts (new file)\n+ c" : String).isEmpty = false := rfl

theorem hGit : c8Env.githubToken = "tok" := rfl
theorem hCfg : c8Env.loadedConfig = DEFAULT_HAVOC_CONFIG := rfl
theorem hPkg : c8Env.pkgHasTestScript = fun _ => false := rfl

theorem body_ex (w : World) :
    ∃ wb, pipelineBody c8Env c8Input w = (Except.ok c8Res, wb) ∧
      wb.statusUpdates = w.statusUpdates ++
        [(RunStatus.cloning, none), (RunStatus.analyzing, none),
         (RunStatus.planning, none), (RunStatus.editing, none),
         (RunStatus.failed,
          some "Code changes were generated but not properly staged. This may be a sandbox sync issue.")] ∧
      wb.sandboxCreated = true := by
  refine ⟨?wb, ?heq, ?hst, ?hsc⟩
  case wb => exact (pipelineBody c8Env c8Input w).2
  all_goals (
    unfold pipelineBody
    dsimp only [c8Input]
    rw [M_bind_def, g_createRun]; dsimp only []
    rw [M_bind_def, g_emit]; dsimp only []
    rw [M_bind_def, g_status]; dsimp only []
    rw [M_bind_def, g_emit]; dsimp only []
    rw [M_bind_def, g_sandboxCreate]; dsimp only []
    rw [M_bind_def, g_emit]; dsimp only []
    rw [M_bind_def, g_emit]; dsimp only []
    rw [hGit]
    rw [M_bind_def, M_pure_def]; dsimp only []
    rw [if_neg (by decide : ¬(("tok" : String) = ""))]
    rw [M_bind_def, M_pure_def]; dsimp only []
    rw [M_bind_def, g_exec]; dsimp only []
    rw [M_bind_def, g_exec]; dsimp only []
    rw [M_bind_def, g_exec]; dsimp only []
    rw [M_bind_def, g_emit]; dsimp only []
    rw [M_bind_def, g_exec]; dsimp only []
    rw [if_pos (by decide : (((0 : Int) == 0) = true))]
    rw [hCfg]
    rw [M_bind_def, g_exec]; dsimp only []
    rw [if_pos (by decide : (((0 : Int) == 0) = true))]
    rw [hPkg]; dsimp only []
    rw [if_neg (by decide : ¬(false = true))]
    rw [M_bind_def, g_defaultBranch]; dsimp only []
    rw [M_bind_def, g_exec]; dsimp only []
    rw [M_bind_def, g_emit]; dsimp only []
    rw [M_bind_def, g_status]; dsimp only []
    rw [M_bind_def, g_emit]; dsimp only []
    rw [M_bind_def, g_analyze]; dsimp only []
    rw [M_bind_def, g_emit]; dsimp only []
    rw [M_bind_def, g_status]; dsimp only []
    rw [M_bind_def, g_emit]; dsimp only []
    rw [M_bind_def, g_plan]; dsimp only []
    rw [M_bind_def, g_updPlan]; dsimp only []
    rw [M_bind_def, g_emit]; dsimp only []
    rw [M_bind_def, g_status]; dsimp only []
    rw [M_bind_def, g_emit]; dsimp only []
    rw [hsort]
    rw [M_bind_def, E0]; dsimp only []
    rw [M_bind_def, g_emit]; dsimp only []
    rw [M_bind_def, g_gitDiff]; dsimp only []
    rw [M_bind_def, g_stageAll]; dsimp only []
    rw [M_bind_def, g_emit]; dsimp only []
    rw [M_bind_def, g_stagedDiff]; dsimp only []
    rw [hTrim]
    rw [if_pos rfl]
    dsimp only [List.filter, c8TR]
    rw [hDiffNE]
    dsimp only [Bool.not_false, List.length]
    rw [if_pos (by decide : (0 : Nat) + 1 > 0)]
    rw [M_bind_def, g_status]; dsimp only []
    rw [M_bind_def, g_emit]; dsimp only []
    rw [M_bind_def, g_issueComment]; dsimp only []
    rw [M_pure_def])
  case heq =>
    dsimp only []
    rfl
  case hst =>
    dsimp only []
    rw [E2]
    simp
  case hsc =>
    dsimp only []
    rw [E3]

theorem core_eval (w0 : World) :
    runPipelineCore c8Env c8Input w0 =
      (Except.ok c8Res, finallyWorld (pipelineBody c8Env c8Input w0).2) := by
  obtain ⟨wb, hpair, hst, hsc⟩ := body_ex w0
  unfold runPipelineCore mtryCatch mfinally
  dsimp only []
  rw [hpair]
  dsimp only []
  rw [pipelineFinally_eval]

theorem core_status (w0 : World) :
    (runPipelineCore c8Env c8Input w0).2.statusUpdates = w0.statusUpdates ++
      [(RunStatus.cloning, none), (RunStatus.analyzing, none),
       (RunStatus.planning, none), (RunStatus.editing, none),
       (RunStatus.failed,
        some "Code changes were generated but not properly staged. This may be a sandbox sync issue.")] := by
  obtain ⟨wb, hpair, hst, hsc⟩ := body_ex w0
  rw [core_eval w0]
  dsimp only []
  rw [hpair]
  dsimp only []
  rw [finallyWorld_statusUpdates, hst]

/-- C8: in the concrete run where the planner yields one `create` task whose
generated code is written successfully (so its task result carries a
non-empty diff) but `git diff --cached` reports an empty staged diff after
staging, the run is persisted as `failed` with the distinct staging/sync
message — yet the returned `PipelineResult` carries
`error = some "No changes generated"`, the "no changes generated" message,
not a distinct sync-issue error: the source ternary
`stagedDiff.trim() ? 'Sync issue' : 'No changes generated'` is evaluated
inside the branch where the trimmed staged diff is empty, so its
`'Sync issue'` arm is unreachable and the two failure modes are conflated
in the returned result. -/
theorem C8_sync_issue_error_conflated :
    (runPipeline c8Env c8Input World.init).1 =
      Except.ok
        { runId := "r8", success := false, prUrl := none, prNumber := none
          confidenceScore := 0, policyPassed := false
          error := some "No changes generated" } ∧
    (RunStatus.failed,
     some "Code changes were generated but not properly staged. This may be a sandbox sync issue.")
      ∈ (runPipeline c8Env c8Input World.init).2.statusUpdates ∧
    (executeTasks c8Env (RunnerCtx.mk DEFAULT_HAVOC_CONFIG "/workspace/repo")
        (EditorContext.mk "TypeScript" none) (sortTasks c8Plan.tasks) World.init).1 =
      Except.ok [{ taskId := 1, success := true, file := "a.ts", action := Action.created
                   error := none, diff := some ("+++ a.ts (new file)\n+ c") }] ∧
    ("+++ a.ts (new file)\n+ c" : String) ≠ "" := by
  refine ⟨?_, ?_, ?_, ?_⟩
  · unfold runPipeline
    rw [M_bind_def, g_emit]; dsimp only []
    rw [core_eval]
    rfl
  · unfold runPipeline
    rw [M_bind_def, g_emit]; dsimp only []
    rw [core_status]
    dsimp only [World.init]
    simp
  · rw [hsort]
    exact E1 World.init
  · decide

end Havoc
